import Mathlib

/-!
Shallow embedding of the LXD QEMU virtual-machine lifecycle driver
(`qemu` instance type: Start / Stop / Shutdown / OnStop / Update /
VolatileSet / FillNetworkDevice / cleanupDevices / deviceBootPriorities /
cpuTopology) together with proofs about the driver's behaviour.

Go `map[string]string` values are embedded as association lists whose list
order records the (otherwise unspecified) map iteration order; indexing a
missing key yields `""` exactly as in Go.  External collaborators (QMP
monitor, cluster database, storage pool, device implementations) are
embedded as explicit outcome environments: each fallible external call is
given its result by an environment field, and the driver's control flow is
translated statement by statement from the source.
-/

/-! ## Strings

Go compares and sorts strings byte-wise.  The embedding compares the
character sequences of Lean strings; all device names and config keys in
play are ASCII, where the two orders agree.  The helpers below are written
by structural recursion so that every comparison evaluates inside the
kernel. -/

/-- Byte-wise lexicographic strict order on character code sequences. -/
def lexLtN : List Nat → List Nat → Bool
  | [], [] => false
  | [], _ :: _ => true
  | _ :: _, [] => false
  | a :: as, b :: bs =>
    if a < b then true
    else if b < a then false
    else lexLtN as bs

/-- Go `a < b` on strings. -/
def strLt (a b : String) : Bool :=
  lexLtN (a.data.map Char.toNat) (b.data.map Char.toNat)

/-- Go `a <= b` on strings (total order: not `b < a`). -/
def strLe (a b : String) : Bool :=
  !(strLt b a)

/-- Go `strings.HasPrefix(s, p)`: `p` is a leading piece of `s`. -/
def pfxOf : List Char → List Char → Bool
  | [], _ => true
  | _ :: _, [] => false
  | a :: as, b :: bs => a == b && pfxOf as bs

/-- Go `strings.HasPrefix(s, pfx)`. -/
def strHasPfx (s p : String) : Bool :=
  pfxOf p.data s.data

theorem lexLtN_irrefl (u : List Nat) : lexLtN u u = false := by
  induction u with
  | nil => rfl
  | cons a as ih => simp [lexLtN, ih]

theorem lexLtN_trans :
    ∀ {u v w : List Nat}, lexLtN u v = true → lexLtN v w = true → lexLtN u w = true := by
  intro u
  induction u with
  | nil =>
    intro v w huv hvw
    cases v with
    | nil => exact hvw
    | cons b bs =>
      cases w with
      | nil => simp [lexLtN] at hvw
      | cons c cs => rfl
  | cons a as ih =>
    intro v w huv hvw
    cases v with
    | nil => simp [lexLtN] at huv
    | cons b bs =>
      cases w with
      | nil => simp [lexLtN] at hvw
      | cons c cs =>
        simp only [lexLtN] at huv hvw ⊢
        by_cases hab : a < b
        · by_cases hbc : b < c
          · simp [Nat.lt_trans hab hbc]
          · by_cases hcb : c < b
            · simp [hbc, hcb] at hvw
            · have hbc' : b = c := Nat.le_antisymm (Nat.le_of_not_lt hcb) (Nat.le_of_not_lt hbc)
              subst hbc'
              simp [hab]
        · by_cases hba : b < a
          · simp [hab, hba] at huv
          · have hab' : a = b := Nat.le_antisymm (Nat.le_of_not_lt hba) (Nat.le_of_not_lt hab)
            subst hab'
            by_cases hac : a < c
            · simp [hac]
            · by_cases hca : c < a
              · simp [hac, hca] at hvw
              · simp only [if_neg hab, if_neg hba] at huv
                simp only [if_neg hac, if_neg hca] at hvw ⊢
                exact ih huv hvw

theorem lexLtN_asymm {u v : List Nat} (h : lexLtN u v = true) : lexLtN v u = false := by
  rcases h2 : lexLtN v u with _ | _
  · rfl
  · have := lexLtN_trans h h2
    rw [lexLtN_irrefl] at this
    cases this

theorem lexLtN_total (u v : List Nat) :
    lexLtN u v = true ∨ lexLtN v u = true ∨ u = v := by
  induction u generalizing v with
  | nil =>
    cases v with
    | nil => exact Or.inr (Or.inr rfl)
    | cons b bs => exact Or.inl rfl
  | cons a as ih =>
    cases v with
    | nil => exact Or.inr (Or.inl rfl)
    | cons b bs =>
      rcases Nat.lt_trichotomy a b with hab | hab | hab
      · exact Or.inl (by simp [lexLtN, hab])
      · subst hab
        rcases ih bs with h | h | h
        · exact Or.inl (by simp [lexLtN, h])
        · exact Or.inr (Or.inl (by simp [lexLtN, h]))
        · exact Or.inr (Or.inr (by simp [h]))
      · exact Or.inr (Or.inl (by simp [lexLtN, hab]))

theorem strLe_total (a b : String) : strLe a b = true ∨ strLe b a = true := by
  unfold strLe strLt
  rcases hba : lexLtN (b.data.map Char.toNat) (a.data.map Char.toNat) with _ | _
  · left; simp
  · right; simp [lexLtN_asymm hba]

theorem strLe_trans {a b c : String} :
    strLe a b = true → strLe b c = true → strLe a c = true := by
  unfold strLe strLt
  intro hab hbc
  rw [Bool.not_eq_true'] at hab hbc ⊢
  rcases hca : lexLtN (c.data.map Char.toNat) (a.data.map Char.toNat) with _ | _
  · rfl
  · exfalso
    rcases lexLtN_total (c.data.map Char.toNat) (b.data.map Char.toNat) with h | h | h
    · rw [h] at hbc; cases hbc
    · have h2 := lexLtN_trans h hca
      rw [hab] at h2; cases h2
    · rw [h] at hca
      rw [hca] at hab; cases hab

/-! ## Config maps (`map[string]string`) -/

/-- A Go `map[string]string`, with the list order standing for the map's
iteration order. -/
abbrev Config := List (String × String)

/-- Go map indexing: a missing key reads as the empty string. -/
def Config.get : Config → String → String
  | [], _ => ""
  | kv :: rest, k => if kv.1 = k then kv.2 else Config.get rest k

/-- Plain association lookup (present / absent view of the same map). -/
def Config.find? : Config → String → Option String
  | [], _ => none
  | kv :: rest, k => if kv.1 = k then some kv.2 else Config.find? rest k

/-- Go `delete(m, k)`. -/
def Config.del : Config → String → Config
  | [], _ => []
  | kv :: rest, k => if kv.1 = k then Config.del rest k else kv :: Config.del rest k

/-- Go `m[k] = v`. -/
def Config.set (c : Config) (k v : String) : Config :=
  (k, v) :: Config.del c k

/-- The key list, in iteration order. -/
def Config.keys (c : Config) : List String :=
  c.map Prod.fst

/-! ## Errors

Error kinds distinguishable by variant, as the driver distinguishes them
(`qmp.ErrMonitorDisconnect`, `device.ErrUnsupportedDevType`); everything
else is a wrapped message. -/

inductive Err where
  | monitorDisconnect
  | unsupportedDevType
  | msg (s : String)
  | wrap (s : String) (e : Err)
deriving DecidableEq, Repr

/-! ## Devices (`deviceConfig.Devices`) -/

/-- One device's raw config mapping. -/
abbrev Device := Config

/-- A named device set (`map[string]deviceConfig.Device`); the list order
records the map's iteration order. -/
abbrev Devices := List (String × Device)

/-- Name-wise ordering used to sort a device set. -/
def byNameLe (a b : String × Device) : Prop :=
  strLe a.1 b.1 = true

instance : DecidableRel byNameLe := fun a b => by
  unfold byNameLe
  infer_instance

instance : IsTotal (String × Device) byNameLe :=
  ⟨fun a b => strLe_total a.1 b.1⟩

instance : IsTrans (String × Device) byNameLe :=
  ⟨fun _ _ _ hab hbc => strLe_trans hab hbc⟩

/-- Modelled from the spec: `deviceConfig.Devices.Sorted` (the device
config package is not part of the sources at hand). Device names sort
lexicographically and `Sorted()` returns the device entries in that
ascending name order (a stable sort; map keys are unique, so the order is
unique). -/
def Devices.Sorted (d : Devices) : Devices :=
  List.insertionSort byNameLe d

/-- Modelled from the spec: `deviceConfig.Devices.Reversed` returns the
entries in descending name order, the exact reverse of `Sorted()`. -/
def Devices.Reversed (d : Devices) : Devices :=
  (Devices.Sorted d).reverse

/-! ## The `qemu` instance driver state

The driver fields touched by the operations under study; config maps are
split into the local and expanded layers exactly as in the `qemu` /
`common` structs. -/

structure qemu where
  description : String
  architecture : Int
  ephemeral : Bool
  localConfig : Config
  expandedConfig : Config
  localDevices : Devices
  expandedDevices : Devices
  profiles : List String
  expiryDate : Int
deriving DecidableEq

/-! ## VolatileSet -/

/-- One iteration of the local application loop at the end of
`VolatileSet`: an empty value deletes the key from both config layers, a
non-empty value stores it in both. -/
def volatileStep (st : qemu) (kv : String × String) : qemu :=
  if kv.2 = "" then
    { st with
      expandedConfig := st.expandedConfig.del kv.1
      localConfig := st.localConfig.del kv.1 }
  else
    { st with
      expandedConfig := st.expandedConfig.set kv.1 kv.2
      localConfig := st.localConfig.set kv.1 kv.2 }

/-- The local application loop at the end of `VolatileSet`. -/
def volatileApply (vm : qemu) (changes : Config) : qemu :=
  changes.foldl volatileStep vm

/-- `qemu.VolatileSet`: sanity-check that every key is `volatile.`-prefixed
(Go returns on the first offending key; detecting existence of one is the
same observable behaviour), then write the changes to the database (the
snapshot and non-snapshot branches run different queries but the same
modelled outcome `dbErr`), then apply the changes to the in-memory maps.
Result: returned error, final driver state, and whether a database update
was attempted. -/
def qemu.VolatileSet (vm : qemu) (changes : Config) (dbErr : Option Err) :
    Option Err × qemu × Bool :=
  if changes.all (fun kv => strHasPfx kv.1 "volatile.") then
    match dbErr with
    | some e => (some e, vm, true)
    | none => (none, volatileApply vm changes, true)
  else
    (some (Err.msg "Only volatile keys can be modified with VolatileSet"), vm, false)

theorem Config.find?_del_ne (c : Config) (k k2 : String) (h : k2 ≠ k) :
    (c.del k).find? k2 = c.find? k2 := by
  induction c with
  | nil => rfl
  | cons kv rest ih =>
    by_cases hk : kv.1 = k
    · simp only [Config.del, if_pos hk, ih, Config.find?]
      rw [if_neg (by rw [hk]; exact Ne.symm h)]
    · simp only [Config.del, if_neg hk, Config.find?]
      by_cases hk2 : kv.1 = k2
      · simp [hk2]
      · simp [hk2, ih]

theorem Config.find?_set_self (c : Config) (k v : String) :
    (c.set k v).find? k = some v := by
  simp [Config.set, Config.find?]

theorem Config.find?_set_ne (c : Config) (k v k2 : String) (h : k2 ≠ k) :
    (c.set k v).find? k2 = c.find? k2 := by
  simp only [Config.set, Config.find?, if_neg (Ne.symm h)]
  exact Config.find?_del_ne c k k2 h

theorem Config.find?_del_self (c : Config) (k : String) :
    (c.del k).find? k = none := by
  induction c with
  | nil => rfl
  | cons kv rest ih =>
    by_cases hk : kv.1 = k
    · simpa [Config.del, hk] using ih
    · simpa [Config.del, hk, Config.find?] using ih

theorem volatileStep_find_ne (vm : qemu) (kv : String × String) (k : String)
    (hk : k ≠ kv.1) :
    (volatileStep vm kv).localConfig.find? k = vm.localConfig.find? k ∧
    (volatileStep vm kv).expandedConfig.find? k = vm.expandedConfig.find? k := by
  by_cases he : kv.2 = ""
  · simp only [volatileStep, if_pos he]
    exact ⟨Config.find?_del_ne _ _ _ hk, Config.find?_del_ne _ _ _ hk⟩
  · simp only [volatileStep, if_neg he]
    exact ⟨Config.find?_set_ne _ _ _ _ hk, Config.find?_set_ne _ _ _ _ hk⟩

theorem volatileStep_find_self (vm : qemu) (kv : String × String) :
    (volatileStep vm kv).localConfig.find? kv.1 =
      (if kv.2 = "" then none else some kv.2) ∧
    (volatileStep vm kv).expandedConfig.find? kv.1 =
      (if kv.2 = "" then none else some kv.2) := by
  by_cases he : kv.2 = ""
  · simp only [volatileStep, if_pos he]
    exact ⟨Config.find?_del_self _ _, Config.find?_del_self _ _⟩
  · simp only [volatileStep, if_neg he]
    exact ⟨Config.find?_set_self _ _ _, Config.find?_set_self _ _ _⟩

theorem volatileApply_not_mem (changes : Config) (vm : qemu) (k : String)
    (h : k ∉ Config.keys changes) :
    (volatileApply vm changes).localConfig.find? k = vm.localConfig.find? k ∧
    (volatileApply vm changes).expandedConfig.find? k = vm.expandedConfig.find? k := by
  induction changes generalizing vm with
  | nil => exact ⟨rfl, rfl⟩
  | cons kv rest ih =>
    have hk : k ≠ kv.1 := by
      intro e
      exact h (by simp [Config.keys, e])
    have hrest : k ∉ Config.keys rest := by
      intro e
      exact h (by simp only [Config.keys, List.map_cons, List.mem_cons]; exact Or.inr e)
    have h2 := ih (volatileStep vm kv) hrest
    have hs := volatileStep_find_ne vm kv k hk
    exact ⟨h2.1.trans hs.1, h2.2.trans hs.2⟩

theorem volatileApply_mem (changes : Config) (vm : qemu) (kv : String × String)
    (hmem : kv ∈ changes) (hnd : (Config.keys changes).Nodup) :
    (volatileApply vm changes).localConfig.find? kv.1 =
      (if kv.2 = "" then none else some kv.2) ∧
    (volatileApply vm changes).expandedConfig.find? kv.1 =
      (if kv.2 = "" then none else some kv.2) := by
  induction changes generalizing vm with
  | nil => cases hmem
  | cons x rest ih =>
    have hnd' : (Config.keys rest).Nodup ∧ x.1 ∉ Config.keys rest := by
      simp only [Config.keys, List.map_cons, List.nodup_cons] at hnd
      exact ⟨hnd.2, hnd.1⟩
    rcases List.mem_cons.mp hmem with hx | hx
    · subst hx
      have hpres := volatileApply_not_mem rest (volatileStep vm kv) kv.1 hnd'.2
      have hs := volatileStep_find_self vm kv
      exact ⟨hpres.1.trans hs.1, hpres.2.trans hs.2⟩
    · exact ih (volatileStep vm x) hx hnd'.1

/-- Sample state for exercising `VolatileSet` concretely. -/
def vmC10 : qemu :=
  { description := "", architecture := 0, ephemeral := false
    localConfig := [("volatile.a", "1"), ("x", "2")]
    expandedConfig := [("volatile.a", "1"), ("x", "2")]
    localDevices := [], expandedDevices := [], profiles := [], expiryDate := 0 }

/-- Sample change set: one deletion, one insertion. -/
def chC10 : Config := [("volatile.a", ""), ("volatile.b", "7")]

/-- Sample change set with a non-volatile key. -/
def chC10bad : Config := [("volatile.a", ""), ("boot.priority", "3")]

/-- Claim C10: for every `VolatileSet(changes)` call, a key without the
`volatile.` prefix makes the call fail with no database write and no change
to the in-memory maps; when all keys are prefixed and the database update
succeeds, each empty value deletes its key from both config layers and each
non-empty value stores it in both. -/
theorem C10_VolatileSet (vm : qemu) (changes : Config) (dbErr : Option Err)
    (hnd : (Config.keys changes).Nodup) :
    (¬ (∀ kv ∈ changes, strHasPfx kv.1 "volatile." = true) →
      ((qemu.VolatileSet vm changes dbErr).1.isSome = true ∧
       (qemu.VolatileSet vm changes dbErr).2.1 = vm ∧
       (qemu.VolatileSet vm changes dbErr).2.2 = false)) ∧
    ((∀ kv ∈ changes, strHasPfx kv.1 "volatile." = true) → dbErr = none →
      ((qemu.VolatileSet vm changes dbErr).1 = none ∧
       ∀ kv ∈ changes,
         (qemu.VolatileSet vm changes dbErr).2.1.localConfig.find? kv.1 =
           (if kv.2 = "" then none else some kv.2) ∧
         (qemu.VolatileSet vm changes dbErr).2.1.expandedConfig.find? kv.1 =
           (if kv.2 = "" then none else some kv.2))) := by
  constructor
  · intro hbad
    have hall : ¬ ((changes.all fun kv => strHasPfx kv.1 "volatile.") = true) := by
      intro h
      exact hbad fun kv hkv => List.all_eq_true.mp h kv hkv
    unfold qemu.VolatileSet
    rw [if_neg hall]
    exact ⟨rfl, rfl, rfl⟩
  · intro hgood hdb
    subst hdb
    have hall : (changes.all fun kv => strHasPfx kv.1 "volatile.") = true :=
      List.all_eq_true.mpr hgood
    unfold qemu.VolatileSet
    rw [if_pos hall]
    exact ⟨rfl, fun kv hkv => volatileApply_mem changes vm kv hkv hnd⟩

/-- Witness for Claim C10: a concrete run through both branches. -/
theorem C10_VolatileSet_witness :
    (Config.keys chC10).Nodup ∧
    (qemu.VolatileSet vmC10 chC10 none).1 = none ∧
    (qemu.VolatileSet vmC10 chC10 none).2.1.localConfig.find? "volatile.a" = none ∧
    (qemu.VolatileSet vmC10 chC10 none).2.1.localConfig.find? "volatile.b" = some "7" ∧
    (qemu.VolatileSet vmC10 chC10bad none).2.1 = vmC10 ∧
    (qemu.VolatileSet vmC10 chC10bad none).2.2 = false := by
  have h := C10_VolatileSet vmC10 chC10 none (by decide)
  have hg := h.2 (by decide) rfl
  have hbad := (C10_VolatileSet vmC10 chC10bad none (by decide)).1 (by decide)
  refine ⟨by decide, hg.1, ?_, ?_, hbad.2.1, hbad.2.2⟩
  · simpa using (hg.2 ("volatile.a", "") (by decide)).1
  · simpa using (hg.2 ("volatile.b", "7") (by decide)).1

/-! ## Device stop order on instance stop (OnStop / cleanupDevices) -/

/-- The order in which `Start` starts devices: the source iterates
`vm.expandedDevices.Sorted()` ("Setup devices in sorted order, this
ensures that device mounts are added in path order"). -/
def qemu.startDeviceOrder (vm : qemu) : List String :=
  (Devices.Sorted vm.expandedDevices).map Prod.fst

/-- `qemu.cleanupDevices` (invoked from `OnStop`): the loop iterates
`vm.expandedDevices.Sorted()` and calls `vm.deviceStop` on every entry; an
`ErrUnsupportedDevType` outcome skips to the next entry and any other
error is only logged, so the stop call order is exactly the sorted
iteration order. -/
def qemu.cleanupDevices (vm : qemu) : List String :=
  (Devices.Sorted vm.expandedDevices).map Prod.fst

/-- Sample state with two devices listed in non-alphabetical map order. -/
def vmC1 : qemu :=
  { description := "", architecture := 0, ephemeral := false
    localConfig := [], expandedConfig := []
    localDevices := []
    expandedDevices := [("b", [("type", "disk")]), ("a", [("type", "disk")])]
    profiles := [], expiryDate := 0 }

/-- Counterexample to Claim C1: on an instance with devices named `a` and
`b`, `cleanupDevices` stops them in ascending order `[a, b]`, not in the
claimed strictly descending order `[b, a]` (the reverse of the start
order). -/
theorem C1_counterexample :
    qemu.startDeviceOrder vmC1 = ["a", "b"] ∧
    qemu.cleanupDevices vmC1 = ["a", "b"] ∧
    (qemu.startDeviceOrder vmC1).reverse = ["b", "a"] ∧
    qemu.cleanupDevices vmC1 ≠ (qemu.startDeviceOrder vmC1).reverse := by
  decide

/-- Claim C1 (amended): for every stop of an instance, the device cleanup
performed by `OnStop` stops the expanded devices in ascending
lexicographic name order — the same sorted order in which `Start` starts
them, not its reverse.  The stop order is sorted ascending and is a
permutation of the expanded device names. -/
theorem C1_cleanupDevices_order (vm : qemu) :
    qemu.cleanupDevices vm = qemu.startDeviceOrder vm ∧
    List.Pairwise (fun a b => strLe a b = true) (qemu.cleanupDevices vm) ∧
    (qemu.cleanupDevices vm).Perm (vm.expandedDevices.map Prod.fst) := by
  refine ⟨rfl, ?_, ?_⟩
  · have h : List.Sorted byNameLe (Devices.Sorted vm.expandedDevices) :=
      List.sorted_insertionSort byNameLe vm.expandedDevices
    exact List.pairwise_map.mpr h
  · exact List.Perm.map Prod.fst (List.perm_insertionSort byNameLe vm.expandedDevices)

/-! ## Boot priorities (`deviceBootPriorities`) -/

/-- One decimal digit of Go `strconv.ParseInt`. -/
def digitVal? (c : Char) : Option Nat :=
  if 48 ≤ c.toNat ∧ c.toNat ≤ 57 then some (c.toNat - 48) else none

/-- Decimal digit run of Go `strconv.ParseInt`. -/
def readDigits : List Char → Nat → Option Nat
  | [], acc => some acc
  | c :: rest, acc =>
    match digitVal? c with
    | none => none
    | some d => readDigits rest (acc * 10 + d)

/-- The 32-bit signed range check of `strconv.ParseInt(s, 10, 32)`. -/
def int32range (v : Int) : Option Int :=
  if v < -(2 ^ 31) ∨ (2 ^ 31 : Int) ≤ v then none else some v

/-- Digit-and-range part of Go `strconv.ParseInt(s, 10, 32)` after the
sign has been read: at least one decimal digit, and the signed value must
lie within the 32-bit signed range. -/
def parseInt32core (neg : Bool) (ds : List Char) : Option Int :=
  if ds = [] then none
  else
    match readDigits ds 0 with
    | none => none
    | some n => int32range (if neg then -(n : Int) else (n : Int))

/-- Go `strconv.ParseInt(s, 10, 32)`: optional sign, at least one decimal
digit, result within the 32-bit signed range; anything else errors. -/
def parseInt32 (s : String) : Option Int :=
  match s.data with
  | [] => none
  | c :: rest =>
    if c = '-' then parseInt32core true rest
    else if c = '+' then parseInt32core false rest
    else parseInt32core false (c :: rest)

/-- Go `uint32(v)` on an `int64` value: reduction modulo `2^32`. -/
def uint32ofInt (v : Int) : Nat :=
  (v % (2 ^ 32 : Int)).toNat

/-- The boot priority `deviceBootPriorities` computes for one disk/nic
device: an explicit `boot.priority` is parsed (parse failure fails the
whole call) and converted to `uint32`; otherwise `path == "/"` yields 1
and anything else 0. -/
def devPrio? (conf : Device) : Option Nat :=
  if ¬ (Config.get conf "boot.priority" = "") then
    match parseInt32 (Config.get conf "boot.priority") with
    | none => none
    | some p => some (uint32ofInt p)
  else if Config.get conf "path" = "/" then some 1
  else some 0

/-- The `devices` slice built by the first loop of `deviceBootPriorities`:
disk/nic devices in map-iteration order, each with its boot priority. -/
def bootPrios : Devices → Option (List (String × Nat))
  | [] => some []
  | (n, conf) :: rest =>
    if Config.get conf "type" = "disk" ∨ Config.get conf "type" = "nic" then
      match devPrio? conf with
      | none => none
      | some p =>
        match bootPrios rest with
        | none => none
        | some ps => some ((n, p) :: ps)
    else bootPrios rest

/-- Comparator of the `sort.SliceStable` call: descending `BootPrio`.
(`insertionSort` with this non-strict relation is a stable descending
sort, matching `sort.SliceStable` with the strict `>` less-function.) -/
def byPrioGe (a b : String × Nat) : Prop :=
  b.2 ≤ a.2

instance : DecidableRel byPrioGe := fun a b => by
  unfold byPrioGe
  infer_instance

instance : IsTotal (String × Nat) byPrioGe :=
  ⟨fun a b => by unfold byPrioGe; exact Nat.le_total b.2 a.2⟩

instance : IsTrans (String × Nat) byPrioGe :=
  ⟨fun _ _ _ hab hbc => Nat.le_trans hbc hab⟩

/-- The final loop of `deviceBootPriorities`: each sorted entry is mapped
to its position (`sortedDevs[dev.Name] = bootIndex`). -/
def withIdx : Nat → List (String × Nat) → List (String × Nat)
  | _, [] => []
  | i, d :: ds => (d.1, i) :: withIdx (i + 1) ds

/-- Lookup in the returned name-to-bootIndex map. -/
def idxFind : List (String × Nat) → String → Option Nat
  | [], _ => none
  | kv :: rest, k => if kv.1 = k then some kv.2 else idxFind rest k

/-- `qemu.deviceBootPriorities`: build the priority slice in map-iteration
order, stable-sort it by descending priority, and return the map from
device name to sorted position. -/
def qemu.deviceBootPriorities (vm : qemu) : Option (List (String × Nat)) :=
  match bootPrios vm.expandedDevices with
  | none => none
  | some devices => some (withIdx 0 (List.insertionSort byPrioGe devices))

/-- Sample state for C7: two equal-priority disk devices whose map
iteration order is not alphabetical. -/
def vmC7 : qemu :=
  { description := "", architecture := 0, ephemeral := false
    localConfig := [], expandedConfig := []
    localDevices := []
    expandedDevices := [("b", [("type", "disk")]), ("a", [("type", "disk")])]
    profiles := [], expiryDate := 0 }

/-- Counterexample to Claim C7: devices `a` and `b` both have priority 0,
yet `bootIndex(b) = 0 < bootIndex(a) = 1` while `name(a) < name(b)`: with
equal priorities the stable sort follows the map iteration order, which is
not necessarily the name order. -/
theorem C7_counterexample :
    bootPrios vmC7.expandedDevices = some [("b", 0), ("a", 0)] ∧
    qemu.deviceBootPriorities vmC7 = some [("b", 0), ("a", 1)] ∧
    idxFind [("b", 0), ("a", 1)] "a" = some 1 ∧
    idxFind [("b", 0), ("a", 1)] "b" = some 0 ∧
    strLt "a" "b" = true ∧
    ¬ (1 < 0 ↔ strLt "a" "b" = true) := by
  decide

theorem int32range_some {v p : Int} (h : int32range v = some p) :
    -(2 ^ 31) ≤ p ∧ p < 2 ^ 31 := by
  unfold int32range at h
  split at h
  · cases h
  · rename_i hcond
    push_neg at hcond
    injection h with h2
    subst h2
    exact ⟨hcond.1, hcond.2⟩

theorem parseInt32core_range {neg : Bool} {ds : List Char} {p : Int}
    (h : parseInt32core neg ds = some p) : -(2 ^ 31) ≤ p ∧ p < 2 ^ 31 := by
  unfold parseInt32core at h
  split at h
  · cases h
  · rcases hr : readDigits ds 0 with _ | n
    · rw [hr] at h; cases h
    · rw [hr] at h
      exact int32range_some h

theorem parseInt32_range {s : String} {p : Int} (h : parseInt32 s = some p) :
    -(2 ^ 31) ≤ p ∧ p < 2 ^ 31 := by
  unfold parseInt32 at h
  rcases hd : s.data with _ | ⟨c, rest⟩
  · rw [hd] at h; cases h
  · rw [hd] at h
    simp only at h
    split at h
    · exact parseInt32core_range h
    · split at h
      · exact parseInt32core_range h
      · exact parseInt32core_range h

theorem uint32ofInt_parse {s : String} {p : Int} (h : parseInt32 s = some p) (h0 : 0 ≤ p) :
    uint32ofInt p = p.toNat := by
  have hr := (parseInt32_range h).2
  unfold uint32ofInt
  rw [Int.emod_eq_of_lt h0 (lt_trans hr (by norm_num))]

theorem devPrio?_of_root (conf : Device) (h1 : Config.get conf "boot.priority" = "")
    (h2 : Config.get conf "path" = "/") : devPrio? conf = some 1 := by
  unfold devPrio?
  rw [if_neg (by simp [h1]), if_pos h2]

theorem devPrio?_of_default (conf : Device) (h1 : Config.get conf "boot.priority" = "")
    (h2 : Config.get conf "path" ≠ "/") : devPrio? conf = some 0 := by
  unfold devPrio?
  rw [if_neg (by simp [h1]), if_neg h2]

theorem devPrio?_of_parse (conf : Device) {p : Int}
    (h1 : Config.get conf "boot.priority" ≠ "")
    (hp : parseInt32 (Config.get conf "boot.priority") = some p) :
    devPrio? conf = some (uint32ofInt p) := by
  unfold devPrio?
  rw [if_pos (by simp [h1]), hp]

theorem bootPrios_mem :
    ∀ (devs : Devices) (ps : List (String × Nat)), bootPrios devs = some ps →
      ∀ nc ∈ devs,
        (Config.get nc.2 "type" = "disk" ∨ Config.get nc.2 "type" = "nic") →
        ∀ p, devPrio? nc.2 = some p → (nc.1, p) ∈ ps := by
  intro devs
  induction devs with
  | nil =>
    intro ps _ nc hnc
    cases hnc
  | cons x t ih =>
    intro ps hps nc hnc htype p hp
    obtain ⟨n, conf⟩ := x
    simp only [bootPrios] at hps
    by_cases ht : Config.get conf "type" = "disk" ∨ Config.get conf "type" = "nic"
    · rw [if_pos ht] at hps
      rcases hdp : devPrio? conf with _ | q
      · rw [hdp] at hps; cases hps
      · rw [hdp] at hps
        rcases hbp : bootPrios t with _ | ps'
        · rw [hbp] at hps; cases hps
        · rw [hbp] at hps
          injection hps with hps2
          subst hps2
          rcases List.mem_cons.mp hnc with he | hmem
          · subst he
            rw [hdp] at hp
            injection hp with hpq
            subst hpq
            exact List.mem_cons_self _ _
          · exact List.mem_cons_of_mem _ (ih ps' hbp nc hmem htype p hp)
    · rw [if_neg ht] at hps
      rcases List.mem_cons.mp hnc with he | hmem
      · subst he
        exact absurd htype ht
      · exact ih ps hps nc hmem htype p hp

theorem withIdx_idxFind :
    ∀ (l : List (String × Nat)) (k : Nat), (l.map Prod.fst).Nodup →
      ∀ (i : Nat) (hi : i < l.length),
        idxFind (withIdx k l) (l.get ⟨i, hi⟩).1 = some (k + i) := by
  intro l
  induction l with
  | nil =>
    intro k _ i hi
    exact absurd hi (Nat.not_lt_zero i)
  | cons x t ih =>
    intro k hnd i hi
    have hx : x.1 ∉ t.map Prod.fst := (List.nodup_cons.mp hnd).1
    have hndt : (t.map Prod.fst).Nodup := (List.nodup_cons.mp hnd).2
    cases i with
    | zero => simp [withIdx, idxFind]
    | succ n =>
      have hn : n < t.length := Nat.lt_of_succ_lt_succ hi
      have hmem : (t.get ⟨n, hn⟩).1 ∈ t.map Prod.fst :=
        List.mem_map_of_mem Prod.fst (t.get_mem n hn)
      have hne : x.1 ≠ (t.get ⟨n, hn⟩).1 := fun e => hx (by rw [e]; exact hmem)
      show idxFind ((x.1, k) :: withIdx (k + 1) t) (t.get ⟨n, hn⟩).1 = some (k + (n + 1))
      simp only [idxFind]
      rw [if_neg hne, ih (k + 1) hndt n hn]
      congr 1
      omega

theorem pair_sublist_get {α : Type} {a b : α} :
    ∀ {l : List α}, [a, b].Sublist l →
      ∃ (i j : Nat) (hi : i < l.length) (hj : j < l.length),
        i < j ∧ l.get ⟨i, hi⟩ = a ∧ l.get ⟨j, hj⟩ = b := by
  intro l h
  induction l with
  | nil => simp at h
  | cons x t ih =>
    cases h with
    | cons x2 h2 =>
      obtain ⟨i, j, hi, hj, hij, ha, hb⟩ := ih h2
      exact ⟨i + 1, j + 1, Nat.succ_lt_succ hi, Nat.succ_lt_succ hj,
        Nat.succ_lt_succ hij, ha, hb⟩
    | cons₂ x2 h2 =>
      have hbmem : b ∈ t := List.singleton_sublist.mp h2
      obtain ⟨⟨j, hj⟩, hbj⟩ := List.mem_iff_get.mp hbmem
      exact ⟨0, j + 1, Nat.succ_pos _, Nat.succ_lt_succ hj, Nat.succ_pos j, rfl, hbj⟩

/-- Claim C7 (amended): `deviceBootPriorities` assigns each disk/nic device
with explicit `boot.priority = P` (`P ≥ 0`) the priority `P`; a device with
`path == "/"` and no explicit priority gets 1 and every other device
without explicit priority gets 0; the sort is descending by priority and
stable with respect to the device map's iteration order, so for equal
priorities the boot indexes follow that iteration order (not necessarily
the name order). -/
theorem C7_deviceBootPriorities_amended (vm : qemu) (ps m : List (String × Nat))
    (hps : bootPrios vm.expandedDevices = some ps)
    (hm : qemu.deviceBootPriorities vm = some m)
    (hnd : (ps.map Prod.fst).Nodup) :
    (∀ nc ∈ vm.expandedDevices,
      (Config.get nc.2 "type" = "disk" ∨ Config.get nc.2 "type" = "nic") →
      ((Config.get nc.2 "boot.priority" = "" → Config.get nc.2 "path" = "/" →
          (nc.1, 1) ∈ ps) ∧
       (Config.get nc.2 "boot.priority" = "" → Config.get nc.2 "path" ≠ "/" →
          (nc.1, 0) ∈ ps) ∧
       (∀ p : Int, Config.get nc.2 "boot.priority" ≠ "" → 0 ≤ p →
          parseInt32 (Config.get nc.2 "boot.priority") = some p →
          (nc.1, p.toNat) ∈ ps))) ∧
    (∀ a ∈ ps, ∀ b ∈ ps, ∀ ia ib,
      idxFind m a.1 = some ia → idxFind m b.1 = some ib → b.2 < a.2 → ia < ib) ∧
    (∀ (l1 l2 : List (String × Nat)) (a b : String × Nat),
      ps = l1 ++ a :: l2 → b ∈ l2 → a.2 = b.2 →
      ∀ ia ib, idxFind m a.1 = some ia → idxFind m b.1 = some ib → ia < ib) := by
  have hm2 : m = withIdx 0 (List.insertionSort byPrioGe ps) := by
    unfold qemu.deviceBootPriorities at hm
    rw [hps] at hm
    injection hm with h
    exact h.symm
  have hperm : (List.insertionSort byPrioGe ps).Perm ps :=
    List.perm_insertionSort byPrioGe ps
  have hndL : ((List.insertionSort byPrioGe ps).map Prod.fst).Nodup :=
    ((hperm.map Prod.fst).nodup_iff).mpr hnd
  have hsorted : List.Pairwise byPrioGe (List.insertionSort byPrioGe ps) :=
    List.sorted_insertionSort byPrioGe ps
  have hidx : ∀ (i : Nat) (hi : i < (List.insertionSort byPrioGe ps).length),
      idxFind m ((List.insertionSort byPrioGe ps).get ⟨i, hi⟩).1 = some i := by
    intro i hi
    rw [hm2]
    simpa using withIdx_idxFind (List.insertionSort byPrioGe ps) 0 hndL i hi
  refine ⟨?_, ?_, ?_⟩
  · intro nc hnc htype
    refine ⟨?_, ?_, ?_⟩
    · intro h1 h2
      exact bootPrios_mem vm.expandedDevices ps hps nc hnc htype 1
        (devPrio?_of_root nc.2 h1 h2)
    · intro h1 h2
      exact bootPrios_mem vm.expandedDevices ps hps nc hnc htype 0
        (devPrio?_of_default nc.2 h1 h2)
    · intro p h1 h0 hp
      have hmem := bootPrios_mem vm.expandedDevices ps hps nc hnc htype
        (uint32ofInt p) (devPrio?_of_parse nc.2 h1 hp)
      rwa [uint32ofInt_parse hp h0] at hmem
  · intro a ha b hb ia ib hia hib hlt
    obtain ⟨⟨i, hi⟩, hgi⟩ := List.mem_iff_get.mp (hperm.mem_iff.mpr ha)
    obtain ⟨⟨j, hj⟩, hgj⟩ := List.mem_iff_get.mp (hperm.mem_iff.mpr hb)
    have hia2 := hidx i hi
    rw [hgi] at hia2
    have hii : ia = i := by
      have := hia2.symm.trans hia
      injection this with h
      exact h.symm
    have hib2 := hidx j hj
    rw [hgj] at hib2
    have hjj : ib = j := by
      have := hib2.symm.trans hib
      injection this with h
      exact h.symm
    subst hii
    subst hjj
    rcases Nat.lt_trichotomy ia ib with h | h | h
    · exact h
    · exfalso
      subst h
      have : a = b := by
        rw [← hgi, ← hgj]
      rw [this] at hlt
      exact lt_irrefl _ hlt
    · exfalso
      have hpw := (List.pairwise_iff_get.mp hsorted) ⟨ib, hj⟩ ⟨ia, hi⟩ h
      rw [hgi, hgj] at hpw
      exact absurd hlt (not_lt_of_le hpw)
  · intro l1 l2 a b hsplit hbmem heq ia ib hia hib
    have hsub : [a, b].Sublist ps := by
      rw [hsplit]
      exact (List.Sublist.cons₂ a (List.singleton_sublist.mpr hbmem)).trans
        (List.sublist_append_right l1 (a :: l2))
    have hr : byPrioGe a b := le_of_eq heq.symm
    have hsubL := List.pair_sublist_insertionSort hr hsub
    obtain ⟨i, j, hi, hj, hij, hga, hgb⟩ := pair_sublist_get hsubL
    have hia2 := hidx i hi
    rw [hga] at hia2
    have hib2 := hidx j hj
    rw [hgb] at hib2
    have hii : ia = i := by
      have := hia2.symm.trans hia
      injection this with h
      exact h.symm
    have hjj : ib = j := by
      have := hib2.symm.trans hib
      injection this with h
      exact h.symm
    rw [hii, hjj]
    exact hij

/-- Sample state for the C7 witness: a root disk (implicit priority 1), a
nic with explicit priority 3 and a data disk (priority 0). -/
def vmC7w : qemu :=
  { description := "", architecture := 0, ephemeral := false
    localConfig := [], expandedConfig := []
    localDevices := []
    expandedDevices :=
      [("root", [("type", "disk"), ("path", "/")]),
       ("eth0", [("type", "nic"), ("boot.priority", "3")]),
       ("data", [("type", "disk"), ("path", "/srv")])]
    profiles := [], expiryDate := 0 }

/-- Witness for the amended Claim C7 at a concrete device set. -/
theorem C7_deviceBootPriorities_witness :
    bootPrios vmC7w.expandedDevices = some [("root", 1), ("eth0", 3), ("data", 0)] ∧
    qemu.deviceBootPriorities vmC7w = some [("eth0", 0), ("root", 1), ("data", 2)] ∧
    (0 : Nat) < 1 := by
  refine ⟨by decide, by decide, ?_⟩
  exact (C7_deviceBootPriorities_amended vmC7w
    [("root", 1), ("eth0", 3), ("data", 0)] [("eth0", 0), ("root", 1), ("data", 2)]
    (by decide) (by decide) (by decide)).2.1
    ("eth0", 3) (by decide) ("root", 1) (by decide) 0 1 (by decide) (by decide) (by decide)

/-! ## Lifecycle operations: Start / Stop / Shutdown

Each operation is embedded as a function of an outcome environment that
fixes the result of every external call (module load, lock creation,
monitor commands, database transaction, ...), translated branch by branch
from the source.  The observable result records the returned error, the
sequence of arguments passed to the operation lock's `Done` (for `Stop`,
the completion performed by `OnStop` while `Stop` blocks in `op.Wait()`
is recorded the same way), whether the operation lock was created by the
call, and the instance power states written to the database. -/

structure OpResult where
  ret : Option Err
  doneCalls : List (Option Err)
  lockCreated : Bool
  stateWrites : List String
deriving DecidableEq, Repr

/-- A failure before the operation lock exists: plain error return. -/
def noLock (e : Err) : OpResult :=
  { ret := some e, doneCalls := [], lockCreated := false, stateWrites := [] }

/-- `op.Done(err); return err` with the lock held (Stop / Shutdown shape,
no deferred `Done`). -/
def failStop (e : Err) : OpResult :=
  { ret := some e, doneCalls := [some e], lockCreated := true, stateWrites := [] }

/-- `op.Done(nil); return nil` with the lock held. -/
def okStop : OpResult :=
  { ret := none, doneCalls := [none], lockCreated := true, stateWrites := [] }

/-- The recurring monitor-command pattern of Stop and Shutdown: on
`ErrMonitorDisconnect` complete the lock with nil and return nil, on any
other error complete the lock with it and return it, otherwise carry on. -/
def cmdTolerant (x : Option Err) (k : OpResult) : OpResult :=
  match x with
  | some e => if e = Err.monitorDisconnect then okStop else failStop e
  | none => k

/-- Outcomes of the external calls `qemu.Shutdown` makes, in program
order.  `timerWins` decides the `select` between the monitor wait channel
and the timeout timer. -/
structure ShutdownEnv where
  isRunning : Bool
  lockCreate : Option Err
  connect : Option Err
  wait : Option Err
  powerdown : Option Err
  timeoutPos : Bool
  timerWins : Bool
deriving DecidableEq, Repr

/-- `qemu.Shutdown`: refuse when not running; create a reusable stop lock;
connect the monitor (failure completes the lock with the error); get the
wait channel and send `system_powerdown`, treating `ErrMonitorDisconnect`
as success for both; then either select wait-channel vs timer
(`timeout > 0`) or block on the wait channel.  `Shutdown` never writes an
instance power state. -/
def qemu.Shutdown (env : ShutdownEnv) : OpResult :=
  if env.isRunning = false then noLock (Err.msg "The instance is already stopped")
  else
    match env.lockCreate with
    | some e => noLock e
    | none =>
      match env.connect with
      | some e => failStop e
      | none =>
        cmdTolerant env.wait <|
        cmdTolerant env.powerdown <|
        (if env.timeoutPos then
          (if env.timerWins then failStop (Err.msg "Instance was not shutdown after timeout")
           else okStop)
         else okStop)

/-- The `Stop` ending where `op.Wait()` reports an `OnStop` failure but
the instance is no longer running: the lock was completed with the error,
yet `Stop` itself returns nil. -/
def stopSwallowed (e : Err) : OpResult :=
  { ret := none, doneCalls := [some e], lockCreated := true, stateWrites := [] }

/-- Outcomes of the external calls `qemu.Stop` makes, in program order.
`onStopErr` is the error with which `OnStop` completes the stop lock
(observed through `op.Wait()`), and `isRunningAfter` is the
`vm.IsRunning()` re-check after the wait. -/
structure StopEnv where
  isRunning : Bool
  stateful : Bool
  lockCreate : Option Err
  connect : Option Err
  wait : Option Err
  quit : Option Err
  onStopErr : Option Err
  isRunningAfter : Bool
deriving DecidableEq, Repr

/-- `qemu.Stop`: refuse when not running or stateful; create a
non-reusable stop lock; a monitor connect failure means the VM is already
off, so complete the lock with nil and succeed; get the wait channel and
send `quit`, treating `ErrMonitorDisconnect` as success; block on the
wait channel, then `op.Wait()` observes the completion `OnStop` gave the
lock, and its error is returned only if the instance is still running. -/
def qemu.Stop (env : StopEnv) : OpResult :=
  if env.isRunning = false then noLock (Err.msg "The instance is already stopped")
  else if env.stateful then noLock (Err.msg "Stateful stop isn't supported for VMs at this time")
  else
    match env.lockCreate with
    | some e => noLock e
    | none =>
      match env.connect with
      | some _ => okStop
      | none =>
        cmdTolerant env.wait <|
        cmdTolerant env.quit <|
        (match env.onStopErr with
         | some e => if env.isRunningAfter then failStop e else stopSwallowed e
         | none => okStop)

/-- Outcomes of the external calls `qemu.Start` makes, in program order. -/
structure StartEnv where
  loadModule : Option Err
  isRunning : Bool
  lockCreate : Option Err
  mount : Option Err
  generateConfigShare : Option Err
  mkdirLog : Option Err
  mkdirDevices : Option Err
  mkdirShmounts : Option Err
  nvramMissing : Bool
  setupNvram : Option Err
  deviceStartErr : Option Err
  qemuArchConfig : Option Err
  generateQemuConfigFile : Option Err
  lookPath : Option Err
  unprivUser : Bool
  chownWalk : Option Err
  openFdFiles : Option Err
  cmdRun : Option Err
  pidRead : Option Err
  monitorConnect : Option Err
  cpuLimitSet : Bool
  cpuLimitIsInt : Bool
  cpuTopologyErr : Option Err
  getCPUsErr : Option Err
  pinsMatchPids : Bool
  setAffinityErr : Option Err
  monitorStart : Option Err
  dbTransaction : Option Err
deriving DecidableEq, Repr

/-- A failing `Start` step of the shape `op.Done(err); return err`; the
deferred `op.Done(nil)` still runs afterwards (the lock keeps the first
completion). -/
def failDone (e : Err) : OpResult :=
  { ret := some e, doneCalls := [some e, none], lockCreated := true, stateWrites := [] }

/-- A failing `Start` step that returns the error without calling
`op.Done(err)`: only the deferred `op.Done(nil)` reaches the lock. -/
def failNoDone (e : Err) : OpResult :=
  { ret := some e, doneCalls := [none], lockCreated := true, stateWrites := [] }

/-- Successful `Start`: the DB transaction has set the state to RUNNING
and the deferred `op.Done(nil)` completes the lock with nil. -/
def startOk : OpResult :=
  { ret := none, doneCalls := [none], lockCreated := true, stateWrites := ["RUNNING"] }

/-- The recurring `Start` step pattern: on error `op.Done(err); return err`
(plus the deferred `op.Done(nil)`), otherwise continue. -/
def stepD (x : Option Err) (k : OpResult) : OpResult :=
  match x with
  | some e => failDone e
  | none => k

/-- The device-start failure path of `Start`: the lock is completed with
the device error, but the returned error is the wrapped one. -/
def failDevice (e : Err) : OpResult :=
  { ret := some (Err.wrap "Failed to start device" e),
    doneCalls := [some e, none], lockCreated := true, stateWrites := [] }

/-- Tail of `Start` after CPU pinning: `monitor.Start()` and the database
transaction recording state RUNNING. -/
def startTail (env : StartEnv) : OpResult :=
  stepD env.monitorStart <| stepD env.dbTransaction startOk

/-- CPU pinning block of `Start`: only entered when `limits.cpu` is set to
a non-integer (a cpuset); a pins/PIDs length mismatch returns an error
without completing the lock. -/
def startPinning (env : StartEnv) : OpResult :=
  if env.cpuLimitSet = true ∧ env.cpuLimitIsInt = false then
    stepD env.cpuTopologyErr <|
    stepD env.getCPUsErr <|
    (if env.pinsMatchPids = false then
      failNoDone (Err.msg "QEMU has less vCPUs than configured")
     else stepD env.setAffinityErr (startTail env))
  else startTail env

/-- `qemu.Start`: load `vhost_vsock`, refuse when running, create the
start lock (wrapping a creation failure) with `defer op.Done(nil)`, then
run the start pipeline; each failing step calls `op.Done(err)` before
returning, except that the device-start loop completes the lock with the
device error but returns it wrapped, a QEMU PID read failure and a
pins/vCPU count mismatch return without completing the lock, and
`cmd.Run` wraps its error before completing the lock with it. -/
def qemu.Start (env : StartEnv) : OpResult :=
  match env.loadModule with
  | some e => noLock e
  | none =>
    if env.isRunning then noLock (Err.msg "The instance is already running")
    else
      match env.lockCreate with
      | some e => noLock (Err.wrap "Create instance start operation" e)
      | none =>
        stepD env.mount <|
        stepD env.generateConfigShare <|
        stepD env.mkdirLog <|
        stepD env.mkdirDevices <|
        stepD env.mkdirShmounts <|
        stepD (if env.nvramMissing then env.setupNvram else none) <|
        (match env.deviceStartErr with
         | some e => failDevice e
         | none =>
           stepD env.qemuArchConfig <|
           stepD env.generateQemuConfigFile <|
           stepD env.lookPath <|
           stepD (if env.unprivUser then env.chownWalk else none) <|
           stepD env.openFdFiles <|
           stepD (env.cmdRun.map (Err.wrap "Failed to run qemu")) <|
           (match env.pidRead with
            | some e => failNoDone e
            | none => stepD env.monitorConnect (startPinning env)))

/-! ## C2: lock completion versus returned error -/

/-- When the operation returns an error with the lock created, the lock's
first (winning) completion carries that same error. -/
def doneMatchesRet (r : OpResult) : Prop :=
  ∀ e, r.ret = some e → r.lockCreated = true → r.doneCalls.head? = some (some e)

theorem doneMatchesRet_noLock (e : Err) : doneMatchesRet (noLock e) := by
  intro e2 _ hl
  simp [noLock] at hl

theorem doneMatchesRet_failStop (e : Err) : doneMatchesRet (failStop e) := by
  intro e2 hr _
  simp only [failStop] at hr ⊢
  injection hr with h
  rw [h]
  rfl

theorem doneMatchesRet_okStop : doneMatchesRet okStop := by
  intro e hr _
  simp [okStop] at hr

theorem doneMatchesRet_stopSwallowed (e : Err) : doneMatchesRet (stopSwallowed e) := by
  intro e2 hr _
  simp [stopSwallowed] at hr

theorem doneMatchesRet_cmdTolerant (x : Option Err) (k : OpResult)
    (hk : doneMatchesRet k) : doneMatchesRet (cmdTolerant x k) := by
  cases x with
  | none => exact hk
  | some e =>
    by_cases he : e = Err.monitorDisconnect
    · simp only [cmdTolerant, if_pos he]
      exact doneMatchesRet_okStop
    · simp only [cmdTolerant, if_neg he]
      exact doneMatchesRet_failStop e

theorem doneMatchesRet_ite (c : Prop) [Decidable c] (a b : OpResult)
    (ha : doneMatchesRet a) (hb : doneMatchesRet b) :
    doneMatchesRet (if c then a else b) := by
  by_cases hc : c
  · rw [if_pos hc]; exact ha
  · rw [if_neg hc]; exact hb

theorem doneMatchesRet_Shutdown (env : ShutdownEnv) : doneMatchesRet (qemu.Shutdown env) := by
  unfold qemu.Shutdown
  cases hir : env.isRunning with
  | false => rw [if_pos rfl]; exact doneMatchesRet_noLock _
  | true =>
    rw [if_neg (by simp)]
    cases hlc : env.lockCreate with
    | some e => exact doneMatchesRet_noLock _
    | none =>
      cases hc : env.connect with
      | some e => exact doneMatchesRet_failStop _
      | none =>
        apply doneMatchesRet_cmdTolerant
        apply doneMatchesRet_cmdTolerant
        apply doneMatchesRet_ite
        · apply doneMatchesRet_ite
          · exact doneMatchesRet_failStop _
          · exact doneMatchesRet_okStop
        · exact doneMatchesRet_okStop

theorem doneMatchesRet_Stop (env : StopEnv) : doneMatchesRet (qemu.Stop env) := by
  unfold qemu.Stop
  cases hir : env.isRunning with
  | false => rw [if_pos rfl]; exact doneMatchesRet_noLock _
  | true =>
    rw [if_neg (by simp)]
    cases hst : env.stateful with
    | true => rw [if_pos rfl]; exact doneMatchesRet_noLock _
    | false =>
      rw [if_neg (by simp)]
      cases hlc : env.lockCreate with
      | some e => exact doneMatchesRet_noLock _
      | none =>
        cases hc : env.connect with
        | some e => exact doneMatchesRet_okStop
        | none =>
          apply doneMatchesRet_cmdTolerant
          apply doneMatchesRet_cmdTolerant
          cases ho : env.onStopErr with
          | some e =>
            apply doneMatchesRet_ite
            · exact doneMatchesRet_failStop _
            · exact doneMatchesRet_stopSwallowed _
          | none => exact doneMatchesRet_okStop

/-- The lock-completion discipline `Start` actually satisfies: the lock is
completed with the returned error, or with the device error that the
returned error wraps, or (when the side condition `C` identifying the two
slip paths holds) with nil by the deferred completion only. -/
def startDoneOk (C : Prop) (r : OpResult) : Prop :=
  ∀ e, r.ret = some e → r.lockCreated = true →
    (r.doneCalls.head? = some (some e) ∨
     (∃ e2, e = Err.wrap "Failed to start device" e2 ∧
        r.doneCalls.head? = some (some e2)) ∨
     (C ∧ r.doneCalls.head? = some none))

theorem startDoneOk_noLock (C : Prop) (e : Err) : startDoneOk C (noLock e) := by
  intro e2 _ hl
  simp [noLock] at hl

theorem startDoneOk_failDone (C : Prop) (e : Err) : startDoneOk C (failDone e) := by
  intro e2 hr _
  simp only [failDone] at hr ⊢
  injection hr with h
  rw [h]
  exact Or.inl rfl

theorem startDoneOk_failNoDone (C : Prop) (e : Err) (hC : C) :
    startDoneOk C (failNoDone e) := by
  intro e2 _ _
  exact Or.inr (Or.inr ⟨hC, rfl⟩)

theorem startDoneOk_failDevice (C : Prop) (e : Err) : startDoneOk C (failDevice e) := by
  intro e2 hr _
  simp only [failDevice] at hr ⊢
  injection hr with h
  exact Or.inr (Or.inl ⟨e, h.symm, rfl⟩)

theorem startDoneOk_startOk (C : Prop) : startDoneOk C startOk := by
  intro e hr _
  simp [startOk] at hr

theorem startDoneOk_stepD (C : Prop) (x : Option Err) (k : OpResult)
    (hk : startDoneOk C k) : startDoneOk C (stepD x k) := by
  cases x with
  | none => exact hk
  | some e => exact startDoneOk_failDone C e

theorem startDoneOk_startTail (C : Prop) (env : StartEnv) :
    startDoneOk C (startTail env) := by
  apply startDoneOk_stepD
  apply startDoneOk_stepD
  exact startDoneOk_startOk C

theorem startDoneOk_ite (C : Prop) (c : Prop) [Decidable c] (a b : OpResult)
    (ha : startDoneOk C a) (hb : startDoneOk C b) :
    startDoneOk C (if c then a else b) := by
  by_cases hc : c
  · rw [if_pos hc]; exact ha
  · rw [if_neg hc]; exact hb

theorem startDoneOk_startPinning (C : Prop) (env : StartEnv)
    (hC : env.pinsMatchPids = false → C) : startDoneOk C (startPinning env) := by
  unfold startPinning
  apply startDoneOk_ite
  · apply startDoneOk_stepD
    apply startDoneOk_stepD
    cases hp : env.pinsMatchPids with
    | false =>
      rw [if_pos rfl]
      exact startDoneOk_failNoDone C _ (hC hp)
    | true =>
      rw [if_neg (by simp)]
      apply startDoneOk_stepD
      exact startDoneOk_startTail C env
  · exact startDoneOk_startTail C env

theorem startDoneOk_Start (env : StartEnv) :
    startDoneOk (env.pidRead.isSome = true ∨ env.pinsMatchPids = false)
      (qemu.Start env) := by
  unfold qemu.Start
  cases hlm : env.loadModule with
  | some e => exact startDoneOk_noLock _ _
  | none =>
    cases hir : env.isRunning with
    | true => rw [if_pos rfl]; exact startDoneOk_noLock _ _
    | false =>
      rw [if_neg (by simp)]
      cases hlc : env.lockCreate with
      | some e => exact startDoneOk_noLock _ _
      | none =>
        apply startDoneOk_stepD
        apply startDoneOk_stepD
        apply startDoneOk_stepD
        apply startDoneOk_stepD
        apply startDoneOk_stepD
        apply startDoneOk_stepD
        cases hde : env.deviceStartErr with
        | some e => exact startDoneOk_failDevice _ _
        | none =>
          apply startDoneOk_stepD
          apply startDoneOk_stepD
          apply startDoneOk_stepD
          apply startDoneOk_stepD
          apply startDoneOk_stepD
          apply startDoneOk_stepD
          cases hpr : env.pidRead with
          | some e => exact startDoneOk_failNoDone _ _ (Or.inl rfl)
          | none =>
            apply startDoneOk_stepD
            exact startDoneOk_startPinning _ env (fun h => Or.inr h)

/-- Start environment where every step succeeds until reading the QEMU
PID file fails. -/
def envC2 : StartEnv :=
  { loadModule := none, isRunning := false, lockCreate := none, mount := none
    generateConfigShare := none, mkdirLog := none, mkdirDevices := none
    mkdirShmounts := none, nvramMissing := false, setupNvram := none
    deviceStartErr := none, qemuArchConfig := none, generateQemuConfigFile := none
    lookPath := none, unprivUser := false, chownWalk := none, openFdFiles := none
    cmdRun := none, pidRead := some (Err.msg "pid read failed")
    monitorConnect := none, cpuLimitSet := false, cpuLimitIsInt := false
    cpuTopologyErr := none, getCPUsErr := none, pinsMatchPids := true
    setAffinityErr := none, monitorStart := none, dbTransaction := none }

/-- Counterexample to Claim C2: when `Start` fails reading the QEMU PID
file it returns the error, yet the operation lock is completed only by the
deferred `op.Done(nil)` - with nil, not with the returned error. -/
theorem C2_counterexample :
    (qemu.Start envC2).ret = some (Err.msg "pid read failed") ∧
    (qemu.Start envC2).lockCreated = true ∧
    (qemu.Start envC2).doneCalls = [none] ∧
    (qemu.Start envC2).doneCalls.head? ≠ some (some (Err.msg "pid read failed")) := by
  decide

/-- Claim C2 (amended): whenever `Stop` or `Shutdown` returns a non-nil
error with the lock created, the lock has been completed with that same
error; for `Start` the lock is completed with the returned error, or - on
the device-start failure path - with the device error that the returned
error wraps, or - on the QEMU-PID-read failure and vCPU-count-mismatch
paths - with nil by the deferred completion only. -/
theorem C2_lock_done_amended :
    (∀ env : ShutdownEnv, ∀ e, (qemu.Shutdown env).ret = some e →
       (qemu.Shutdown env).lockCreated = true →
       (qemu.Shutdown env).doneCalls.head? = some (some e)) ∧
    (∀ env : StopEnv, ∀ e, (qemu.Stop env).ret = some e →
       (qemu.Stop env).lockCreated = true →
       (qemu.Stop env).doneCalls.head? = some (some e)) ∧
    (∀ env : StartEnv, ∀ e, (qemu.Start env).ret = some e →
       (qemu.Start env).lockCreated = true →
       ((qemu.Start env).doneCalls.head? = some (some e) ∨
        (∃ e2, e = Err.wrap "Failed to start device" e2 ∧
           (qemu.Start env).doneCalls.head? = some (some e2)) ∨
        ((env.pidRead.isSome = true ∨ env.pinsMatchPids = false) ∧
           (qemu.Start env).doneCalls.head? = some none))) :=
  ⟨fun env => doneMatchesRet_Shutdown env,
   fun env => doneMatchesRet_Stop env,
   fun env => startDoneOk_Start env⟩

/-- A Shutdown environment whose monitor connect fails. -/
def envC2sd : ShutdownEnv :=
  { isRunning := true, lockCreate := none, connect := some (Err.msg "connect refused")
    wait := none, powerdown := none, timeoutPos := true, timerWins := false }

/-- Witness for the amended Claim C2: a concrete failing Shutdown
completes its lock with the same error. -/
theorem C2_lock_done_witness :
    (qemu.Shutdown envC2sd).ret = some (Err.msg "connect refused") ∧
    (qemu.Shutdown envC2sd).doneCalls.head? = some (some (Err.msg "connect refused")) := by
  have h := C2_lock_done_amended.1 envC2sd (Err.msg "connect refused") (by decide) (by decide)
  exact ⟨by decide, h⟩

/-- Claim C3: `Shutdown(timeout)` with `timeout > 0` on a running
instance, monitor connected, wait channel obtained and powerdown
delivered: if the wait channel closes first, it returns nil and completes
the lock with nil; if the timer fires first, it returns the timeout error,
completes the lock with that error, and writes no instance power state
(the guest stays RUNNING - only `OnStop`, triggered by an actual guest
exit, records STOPPED). -/
theorem C3_Shutdown_timeout (env : ShutdownEnv) (h1 : env.isRunning = true)
    (h2 : env.lockCreate = none) (h3 : env.connect = none) (h4 : env.wait = none)
    (h5 : env.powerdown = none) (h6 : env.timeoutPos = true) :
    (env.timerWins = false →
      (qemu.Shutdown env).ret = none ∧ (qemu.Shutdown env).doneCalls = [none]) ∧
    (env.timerWins = true →
      (qemu.Shutdown env).ret = some (Err.msg "Instance was not shutdown after timeout") ∧
      (qemu.Shutdown env).doneCalls = [some (Err.msg "Instance was not shutdown after timeout")] ∧
      (qemu.Shutdown env).stateWrites = []) := by
  constructor
  · intro htw
    simp [qemu.Shutdown, h1, h2, h3, h4, h5, h6, htw, cmdTolerant, okStop]
  · intro htw
    simp [qemu.Shutdown, h1, h2, h3, h4, h5, h6, htw, cmdTolerant, failStop]

/-- Shutdown environment: guest acknowledges before the timer. -/
def envC3ok : ShutdownEnv :=
  { isRunning := true, lockCreate := none, connect := none, wait := none
    powerdown := none, timeoutPos := true, timerWins := false }

/-- Shutdown environment: the timer fires first. -/
def envC3to : ShutdownEnv :=
  { isRunning := true, lockCreate := none, connect := none, wait := none
    powerdown := none, timeoutPos := true, timerWins := true }

/-- Witness for Claim C3 at concrete environments for both select
outcomes. -/
theorem C3_Shutdown_timeout_witness :
    ((qemu.Shutdown envC3ok).ret = none ∧ (qemu.Shutdown envC3ok).doneCalls = [none]) ∧
    ((qemu.Shutdown envC3to).ret = some (Err.msg "Instance was not shutdown after timeout") ∧
     (qemu.Shutdown envC3to).doneCalls = [some (Err.msg "Instance was not shutdown after timeout")] ∧
     (qemu.Shutdown envC3to).stateWrites = []) :=
  ⟨(C3_Shutdown_timeout envC3ok rfl rfl rfl rfl rfl rfl).1 rfl,
   (C3_Shutdown_timeout envC3to rfl rfl rfl rfl rfl rfl).2 rfl⟩

/-- Claim C4: a `Powerdown` (Shutdown) or `Quit` (Stop) failure equal to
`ErrMonitorDisconnect` is treated as success: the lock is completed with
nil and the function returns nil. -/
theorem C4_monitorDisconnect_success :
    (∀ env : ShutdownEnv, env.isRunning = true → env.lockCreate = none →
      env.connect = none → env.wait = none →
      env.powerdown = some Err.monitorDisconnect →
      (qemu.Shutdown env).ret = none ∧ (qemu.Shutdown env).doneCalls = [none]) ∧
    (∀ env : StopEnv, env.isRunning = true → env.stateful = false →
      env.lockCreate = none → env.connect = none → env.wait = none →
      env.quit = some Err.monitorDisconnect →
      (qemu.Stop env).ret = none ∧ (qemu.Stop env).doneCalls = [none]) := by
  constructor
  · intro env h1 h2 h3 h4 h5
    simp [qemu.Shutdown, h1, h2, h3, h4, h5, cmdTolerant, okStop]
  · intro env h1 h2 h3 h4 h5 h6
    simp [qemu.Stop, h1, h2, h3, h4, h5, h6, cmdTolerant, okStop]

/-- Shutdown environment where `Powerdown` reports a monitor disconnect. -/
def envC4sd : ShutdownEnv :=
  { isRunning := true, lockCreate := none, connect := none, wait := none
    powerdown := some Err.monitorDisconnect, timeoutPos := true, timerWins := false }

/-- Stop environment where `Quit` reports a monitor disconnect. -/
def envC4st : StopEnv :=
  { isRunning := true, stateful := false, lockCreate := none, connect := none
    wait := none, quit := some Err.monitorDisconnect, onStopErr := none
    isRunningAfter := false }

/-- Witness for Claim C4 at concrete environments. -/
theorem C4_monitorDisconnect_witness :
    ((qemu.Shutdown envC4sd).ret = none ∧ (qemu.Shutdown envC4sd).doneCalls = [none]) ∧
    ((qemu.Stop envC4st).ret = none ∧ (qemu.Stop envC4st).doneCalls = [none]) :=
  ⟨C4_monitorDisconnect_success.1 envC4sd rfl rfl rfl rfl rfl,
   C4_monitorDisconnect_success.2 envC4st rfl rfl rfl rfl rfl rfl⟩

/-! ## Update -/

/-- The fields of `db.InstanceArgs` consumed by `Update`. -/
structure InstanceArgs where
  Description : String
  Architecture : Int
  Ephemeral : Bool
  Config : Config
  Devices : Devices
  Profiles : List String
  ExpiryDate : Int
deriving DecidableEq, Repr

/-- `UpdateBackupFile` outcome: success, an `os.IsNotExist` error (which
`Update` tolerates), or any other failure. -/
inductive BackupOutcome where
  | ok
  | notExist
  | fail (e : Err)
deriving DecidableEq, Repr

/-- Outcomes of the external calls `qemu.Update` makes, in program order.
`expandConfig` / `expandDevices` carry the profile-merged layers the
(external) expansion produces, or `none` on failure. -/
structure UpdateEnv where
  isRunning : Bool
  validConfig : Option Err
  validDevices : Option Err
  dbProfiles : Option (List String)
  archNameOk : Bool
  expandConfig : Option Config
  expandDevices : Option Devices
  validExpConfig : Option Err
  validExpDevices : Option Err
  updateDiff : List String
  updateDevicesErr : Option Err
  maasErr : Option Err
  isSnapshot : Bool
  nvramErr : Option Err
  dbTxErr : Option Err
  backup : BackupOutcome
deriving DecidableEq, Repr

/-- Go `shared.StringInSlice`. -/
def strInList (s : String) : List String → Bool
  | [] => false
  | x :: rest => if x = s then true else strInList s rest

/-- Profile validation loop of `Update`: every requested profile must
exist in the project and appear only once. -/
def checkProfiles : List String → List String → List String → Option Err
  | [], _, _ => none
  | p :: rest, dbP, checked =>
    if ¬ (strInList p dbP = true) then some (Err.msg "Requested profile doesn't exist")
    else if strInList p checked = true then some (Err.msg "Duplicate profile found in request")
    else checkProfiles rest dbP (checked ++ [p])

/-- One direction of the volatile/image read-only check: scan the entries
of one config map and compare each `volatile.` / `image.` key against the
other map (Go map indexing, missing key reads `""`). -/
def roKeyScan : List (String × String) → Config → Option Err
  | [], _ => none
  | (k, v) :: rest, other =>
    if strHasPfx k "volatile." = true ∧ Config.get other k ≠ v then
      some (Err.msg "Volatile keys are read-only")
    else if strHasPfx k "image." = true ∧ Config.get other k ≠ v then
      some (Err.msg "Image keys are read-only")
    else roKeyScan rest other

/-- The two scans of the `userRequested` check: supplied config against
current local config, then current local config against supplied
config. -/
def checkVolatileImage (argsC localC : Config) : Option Err :=
  match roKeyScan argsC localC with
  | some e => some e
  | none => roKeyScan localC argsC

/-- One pass of the expanded-config diff: append every key whose value
differs between the two layers and is not yet recorded. -/
def addChanged (oldC newC : Config) (acc : List String) (ks : List String) : List String :=
  ks.foldl
    (fun acc k =>
      if Config.get oldC k ≠ Config.get newC k ∧ ¬ (strInList k acc = true) then acc ++ [k]
      else acc)
    acc

/-- `changedConfig` of `Update`: keys of either expanded layer whose
values differ. -/
def configDiffKeys (oldC newC : Config) : List String :=
  addChanged oldC newC (addChanged oldC newC [] (Config.keys oldC)) (Config.keys newC)

/-- The four keys whose change triggers a MAAS update. -/
def maasKeys : List String :=
  ["maas.subnet.ipv4", "maas.subnet.ipv6", "ipv4.address", "ipv6.address"]

/-- The architecture `Update` works with after defaulting: an unset (zero)
value falls back to the instance's current architecture. -/
def archEff (vm : qemu) (args : InstanceArgs) : Int :=
  if args.Architecture = 0 then vm.architecture else args.Architecture

/-- The in-memory state right after `Update` applies the argument fields
(before re-expansion). -/
def appliedVm (vm : qemu) (args : InstanceArgs) : qemu :=
  { vm with
    description := args.Description
    architecture := archEff vm args
    ephemeral := args.Ephemeral
    localConfig := args.Config
    localDevices := args.Devices
    profiles := args.Profiles
    expiryDate := args.ExpiryDate }

/-- The in-memory state after `Update` re-expands both layers. -/
def updatedVm (vm : qemu) (args : InstanceArgs) (ec : Config) (ed : Devices) : qemu :=
  { appliedVm vm args with expandedConfig := ec, expandedDevices := ed }

/-- One validation / application step of `Update`: an error aborts the
call and (through the deferred reverter, once past the snapshot) leaves
the in-memory state `vm`; otherwise the pipeline continues. -/
def stepU (vm : qemu) (x : Option Err) (k : Option Err × qemu) : Option Err × qemu :=
  match x with
  | some e => (some e, vm)
  | none => k

/-- The backup-file step tolerates `os.IsNotExist`. -/
def backupErr : BackupOutcome → Option Err
  | BackupOutcome.fail e => some (Err.wrap "Failed to write backup file" e)
  | _ => none

/-- `qemu.Update`: refuse while running; default the architecture;
validate config, devices, profiles and architecture; when
`userRequested`, refuse any `volatile.*` / `image.*` difference between
the supplied and the current local config (either direction); snapshot
the nine in-memory fields; apply the arguments, re-expand both layers,
diff, validate the expanded sets, apply the device changes, push to MAAS
when one of the four address keys changed, regenerate NVRAM when
`security.secureboot` changed, persist through the database transaction
and rewrite the backup file (tolerating `os.IsNotExist`).  Any failure
after the snapshot runs the deferred reverter, which restores every
snapshotted field, so every error return leaves the in-memory state as it
was before the call. -/
def qemu.Update (vm : qemu) (args : InstanceArgs) (userRequested : Bool)
    (env : UpdateEnv) : Option Err × qemu :=
  if env.isRunning then (some (Err.msg "Update whilst running not supported"), vm)
  else
    stepU vm (env.validConfig.map (Err.wrap "Invalid config")) <|
    stepU vm (env.validDevices.map (Err.wrap "Invalid devices")) <|
    stepU vm (if env.dbProfiles = none then some (Err.msg "Failed to get profiles") else none) <|
    stepU vm (checkProfiles args.Profiles (env.dbProfiles.getD []) []) <|
    stepU vm (if archEff vm args ≠ 0 ∧ env.archNameOk = false then
      some (Err.msg "Invalid architecture ID") else none) <|
    stepU vm (if userRequested then checkVolatileImage args.Config vm.localConfig else none) <|
    -- snapshot taken here (`old...` deep copies + deferred reverter);
    -- from here on every error return carries the restored state `vm`
    stepU vm (if env.expandConfig = none then some (Err.msg "Expand config") else none) <|
    stepU vm (if env.expandDevices = none then some (Err.msg "Expand devices") else none) <|
    stepU vm (env.validExpConfig.map (Err.wrap "Invalid expanded config")) <|
    stepU vm (env.validExpDevices.map (Err.wrap "Invalid expanded devices")) <|
    stepU vm env.updateDevicesErr <|
    stepU vm (if env.isSnapshot = false ∧
        maasKeys.any (fun k => strInList k env.updateDiff) = true then
      env.maasErr else none) <|
    stepU vm (if strInList "security.secureboot"
        (configDiffKeys vm.expandedConfig (env.expandConfig.getD [])) = true then
      env.nvramErr else none) <|
    stepU vm (env.dbTxErr.map (Err.wrap "Failed to update database")) <|
    stepU vm (backupErr env.backup) <|
    (none, updatedVm vm args (env.expandConfig.getD []) (env.expandDevices.getD []))

theorem Config.get_of_not_mem_keys (c : Config) (k : String)
    (h : k ∉ Config.keys c) : Config.get c k = "" := by
  induction c with
  | nil => rfl
  | cons kv rest ih =>
    have hk : kv.1 ≠ k := fun e => h (by simp [Config.keys, e])
    have hrest : k ∉ Config.keys rest := fun e =>
      h (by simp only [Config.keys, List.map_cons, List.mem_cons]; exact Or.inr e)
    simp only [Config.get, if_neg hk]
    exact ih hrest

theorem Config.mem_get_of_mem_keys (c : Config) (k : String)
    (h : k ∈ Config.keys c) : (k, Config.get c k) ∈ c := by
  induction c with
  | nil => cases h
  | cons kv rest ih =>
    by_cases hk : kv.1 = k
    · have hg : Config.get (kv :: rest) k = kv.2 := by
        simp [Config.get, hk]
      rw [hg, ← hk]
      exact List.mem_cons_self _ _
    · have hrest : k ∈ Config.keys rest := by
        simp only [Config.keys, List.map_cons, List.mem_cons] at h
        rcases h with h | h
        · exact absurd h.symm hk
        · exact h
      have hg : Config.get (kv :: rest) k = Config.get rest k := by
        simp [Config.get, hk]
      rw [hg]
      exact List.mem_cons_of_mem _ (ih hrest)

theorem roKeyScan_detect :
    ∀ (entries : List (String × String)) (other : Config) (k v : String),
      (k, v) ∈ entries →
      (strHasPfx k "volatile." = true ∨ strHasPfx k "image." = true) →
      Config.get other k ≠ v →
      ∃ e, roKeyScan entries other = some e := by
  intro entries
  induction entries with
  | nil =>
    intro other k v hmem
    cases hmem
  | cons x rest ih =>
    intro other k v hmem hpfx hne
    obtain ⟨k0, v0⟩ := x
    by_cases c1 : strHasPfx k0 "volatile." = true ∧ Config.get other k0 ≠ v0
    · exact ⟨Err.msg "Volatile keys are read-only", by simp only [roKeyScan, if_pos c1]⟩
    · by_cases c2 : strHasPfx k0 "image." = true ∧ Config.get other k0 ≠ v0
      · exact ⟨Err.msg "Image keys are read-only", by simp only [roKeyScan, if_neg c1, if_pos c2]⟩
      · rcases List.mem_cons.mp hmem with he | hm
        · exfalso
          have hk : k = k0 := congrArg Prod.fst he
          have hv : v = v0 := congrArg Prod.snd he
          subst hk
          subst hv
          rcases hpfx with hp | hp
          · exact c1 ⟨hp, hne⟩
          · exact c2 ⟨hp, hne⟩
        · obtain ⟨e, he⟩ := ih other k v hm hpfx hne
          exact ⟨e, by simp only [roKeyScan, if_neg c1, if_neg c2]; exact he⟩

theorem checkVolatileImage_some (argsC localC : Config)
    (hk : ∃ k, (strHasPfx k "volatile." = true ∨ strHasPfx k "image." = true) ∧
          Config.get argsC k ≠ Config.get localC k) :
    ∃ e, checkVolatileImage argsC localC = some e := by
  obtain ⟨k, hpfx, hne⟩ := hk
  by_cases hmem : k ∈ Config.keys argsC
  · have hm := Config.mem_get_of_mem_keys argsC k hmem
    obtain ⟨e, he⟩ := roKeyScan_detect argsC localC k (Config.get argsC k) hm hpfx (Ne.symm hne)
    exact ⟨e, by unfold checkVolatileImage; rw [he]⟩
  · have hemp := Config.get_of_not_mem_keys argsC k hmem
    by_cases hmem2 : k ∈ Config.keys localC
    · have hm := Config.mem_get_of_mem_keys localC k hmem2
      obtain ⟨e, he⟩ := roKeyScan_detect localC argsC k (Config.get localC k) hm hpfx hne
      unfold checkVolatileImage
      cases h1 : roKeyScan argsC localC with
      | some e1 => exact ⟨e1, rfl⟩
      | none => exact ⟨e, he⟩
    · exfalso
      have hemp2 := Config.get_of_not_mem_keys localC k hmem2
      exact hne (hemp.trans hemp2.symm)

/-- Invariant of the `Update` pipeline: an error return leaves the state
at `vm`, a nil return leaves it satisfying `Q`. -/
def revertSpec (vm : qemu) (Q : qemu → Prop) (r : Option Err × qemu) : Prop :=
  (∀ e, r.1 = some e → r.2 = vm) ∧ (r.1 = none → Q r.2)

theorem revertSpec_stepU (vm : qemu) (Q : qemu → Prop) (x : Option Err)
    (k : Option Err × qemu) (hk : revertSpec vm Q k) :
    revertSpec vm Q (stepU vm x k) := by
  cases x with
  | some e => exact ⟨fun _ _ => rfl, fun h => nomatch h⟩
  | none => exact hk

theorem revertSpec_ok (vm : qemu) (Q : qemu → Prop) (v : qemu) (hq : Q v) :
    revertSpec vm Q (none, v) :=
  ⟨fun _ h => (nomatch h), fun _ => hq⟩

theorem stepU_fails (vm : qemu) (x : Option Err) (k : Option Err × qemu)
    (hk : k.1.isSome = true) : (stepU vm x k).1.isSome = true := by
  cases x with
  | some e => rfl
  | none => exact hk

/-- The nine-field postcondition a successful `Update` establishes. -/
def updatedFields (vm : qemu) (args : InstanceArgs) (env : UpdateEnv) (s : qemu) : Prop :=
  s.description = args.Description ∧
  s.architecture = archEff vm args ∧
  s.ephemeral = args.Ephemeral ∧
  s.localConfig = args.Config ∧
  s.localDevices = args.Devices ∧
  s.profiles = args.Profiles ∧
  s.expiryDate = args.ExpiryDate ∧
  s.expandedConfig = env.expandConfig.getD [] ∧
  s.expandedDevices = env.expandDevices.getD []

theorem update_revertSpec (vm : qemu) (args : InstanceArgs) (ur : Bool)
    (env : UpdateEnv) :
    revertSpec vm (updatedFields vm args env) (qemu.Update vm args ur env) := by
  unfold qemu.Update
  cases hir : env.isRunning with
  | true =>
    rw [if_pos rfl]
    exact ⟨fun _ _ => rfl, fun h => nomatch h⟩
  | false =>
    rw [if_neg (by simp)]
    apply revertSpec_stepU
    apply revertSpec_stepU
    apply revertSpec_stepU
    apply revertSpec_stepU
    apply revertSpec_stepU
    apply revertSpec_stepU
    apply revertSpec_stepU
    apply revertSpec_stepU
    apply revertSpec_stepU
    apply revertSpec_stepU
    apply revertSpec_stepU
    apply revertSpec_stepU
    apply revertSpec_stepU
    apply revertSpec_stepU
    apply revertSpec_stepU
    exact revertSpec_ok vm _ _ ⟨rfl, rfl, rfl, rfl, rfl, rfl, rfl, rfl, rfl⟩

/-- Claim C5: a user-requested `Update` whose supplied config differs from
the current local config on any `volatile.*` or `image.*` key (in either
direction, with Go's empty read for missing keys) returns an error before
applying any change: the driver state after the call is exactly the state
before it, so no `volatile.*` or `image.*` key is mutated. -/
theorem C5_Update_readonly_keys (vm : qemu) (args : InstanceArgs) (env : UpdateEnv)
    (hk : ∃ k, (strHasPfx k "volatile." = true ∨ strHasPfx k "image." = true) ∧
          Config.get args.Config k ≠ Config.get vm.localConfig k) :
    ((qemu.Update vm args true env).1).isSome = true ∧
    (qemu.Update vm args true env).2 = vm := by
  have hsome : ((qemu.Update vm args true env).1).isSome = true := by
    unfold qemu.Update
    cases hir : env.isRunning with
    | true => rw [if_pos rfl]; rfl
    | false =>
      rw [if_neg (by simp)]
      apply stepU_fails
      apply stepU_fails
      apply stepU_fails
      apply stepU_fails
      apply stepU_fails
      obtain ⟨e, he⟩ := checkVolatileImage_some args.Config vm.localConfig hk
      rw [if_pos rfl, he]
      rfl
  refine ⟨hsome, ?_⟩
  obtain ⟨e, he⟩ := Option.isSome_iff_exists.mp hsome
  exact (update_revertSpec vm args true env).1 e he

/-- Claim C6: whatever outcome the environment assigns to each step, an
`Update` that returns an error leaves every snapshotted in-memory field
(description, architecture, ephemeral, local and expanded config, local
and expanded devices, profiles, expiry date) equal to its pre-call value -
the whole state record is restored - while a successful `Update` leaves
every field holding its updated value: the restoration is
all-or-nothing. -/
theorem C6_Update_revert (vm : qemu) (args : InstanceArgs) (ur : Bool) (env : UpdateEnv) :
    (∀ e, (qemu.Update vm args ur env).1 = some e → (qemu.Update vm args ur env).2 = vm) ∧
    ((qemu.Update vm args ur env).1 = none →
      updatedFields vm args env (qemu.Update vm args ur env).2) :=
  update_revertSpec vm args ur env

/-- All-success Update environment. -/
def envUok : UpdateEnv :=
  { isRunning := false, validConfig := none, validDevices := none
    dbProfiles := some [], archNameOk := true, expandConfig := some [("a", "1")]
    expandDevices := some [], validExpConfig := none, validExpDevices := none
    updateDiff := [], updateDevicesErr := none, maasErr := none, isSnapshot := false
    nvramErr := none, dbTxErr := none, backup := BackupOutcome.ok }

/-- Update environment whose database transaction fails. -/
def envUfail : UpdateEnv :=
  { envUok with dbTxErr := some (Err.msg "db down") }

/-- Sample instance state for the Update witnesses. -/
def vmU : qemu :=
  { description := "old", architecture := 1, ephemeral := false
    localConfig := [("volatile.x", "1")], expandedConfig := [("volatile.x", "1")]
    localDevices := [], expandedDevices := [], profiles := [], expiryDate := 5 }

/-- Update arguments that leave the volatile key untouched. -/
def argsU : InstanceArgs :=
  { Description := "new", Architecture := 1, Ephemeral := false
    Config := [("a", "1")], Devices := [], Profiles := [], ExpiryDate := 9 }

/-- Update arguments that try to change a volatile key. -/
def argsC5 : InstanceArgs :=
  { argsU with Config := [("volatile.x", "2")] }

/-- Witness for Claim C5: a user-requested Update changing `volatile.x`
fails and leaves the state untouched. -/
theorem C5_Update_readonly_keys_witness :
    ((qemu.Update vmU argsC5 true envUok).1).isSome = true ∧
    (qemu.Update vmU argsC5 true envUok).2 = vmU :=
  C5_Update_readonly_keys vmU argsC5 envUok ⟨"volatile.x", Or.inl (by decide), by decide⟩

/-- Witness for Claim C6: a failing Update restores the state record, a
successful one carries the new local config. -/
theorem C6_Update_revert_witness :
    (qemu.Update vmU argsU false envUfail).2 = vmU ∧
    (qemu.Update vmU argsU false envUok).2.localConfig = argsU.Config := by
  constructor
  · exact (C6_Update_revert vmU argsU false envUfail).1
      (Err.wrap "Failed to update database" (Err.msg "db down")) (by decide)
  · exact ((C6_Update_revert vmU argsU false envUok).2 (by decide)).2.2.2.1

/-! ## FillNetworkDevice -/

/-- Modelled from the spec: `deviceConfig.Device.NICType()` reads the
device's `nictype` property (the device config package is not in the
sources at hand). -/
def Device.NICType (m : Device) : String :=
  Config.get m "nictype"

/-- Outcomes of the external calls `FillNetworkDevice` makes: MAC
generation, the database insert of the volatile key, and - should the
insert fail - the concurrent value another writer may have stored. -/
structure FillEnv where
  generatedMac : String
  generateErr : Option Err
  dbInsert : Option Err
  concurrentValue : Option String
deriving DecidableEq, Repr

/-- `qemu.FillNetworkDevice`: for a nic/infiniband device whose `nictype`
is not physical/ipvlan/sriov and whose `hwaddr` is unset, read
`volatile.<name>.hwaddr` from the local config; when empty, generate a
MAC and persist it (a failed insert is tolerated when a concurrent writer
filled the key); finally return a clone of the device with `hwaddr` set.
Result: error, returned device, driver state, and the number of database
writes issued. -/
def qemu.FillNetworkDevice (vm : qemu) (name : String) (m : Device) (env : FillEnv) :
    Option Err × Device × qemu × Nat :=
  if ¬ (strInList (Device.NICType m) ["physical", "ipvlan", "sriov"] = true) ∧
      Config.get m "hwaddr" = "" then
    if Config.get vm.localConfig ("volatile." ++ name ++ ".hwaddr") = "" then
      match env.generateErr with
      | some e => (some e, m, vm, 0)
      | none =>
        match env.dbInsert with
        | none =>
          (none, Config.set m "hwaddr" env.generatedMac,
           { vm with
             localConfig :=
               Config.set vm.localConfig ("volatile." ++ name ++ ".hwaddr") env.generatedMac
             expandedConfig :=
               Config.set vm.expandedConfig ("volatile." ++ name ++ ".hwaddr") env.generatedMac },
           1)
        | some e =>
          match env.concurrentValue with
          | none => (some e, m, vm, 1)
          | some v =>
            if v = "" then (some e, m, vm, 1)
            else
              (none, Config.set m "hwaddr" env.generatedMac,
               { vm with
                 localConfig :=
                   Config.set vm.localConfig ("volatile." ++ name ++ ".hwaddr") v
                 expandedConfig :=
                   Config.set vm.expandedConfig ("volatile." ++ name ++ ".hwaddr") v },
               1)
    else
      (none,
       Config.set m "hwaddr" (Config.get vm.localConfig ("volatile." ++ name ++ ".hwaddr")),
       vm, 0)
  else
    (none, m, vm, 0)

theorem Config.get_set_self (c : Config) (k v : String) :
    Config.get (Config.set c k v) k = v := by
  simp [Config.set, Config.get]

/-- Claim C9: volatile MAC generation is idempotent.  A first successful
`FillNetworkDevice` for a nic device without configured hwaddr generates
and persists `volatile.<name>.hwaddr` with exactly one database write;
every subsequent call for the same device name succeeds, returns a device
whose hwaddr equals the persisted value, issues zero database writes and
leaves the driver state unchanged. -/
theorem C9_FillNetworkDevice_idempotent (vm : qemu) (name : String) (m : Device)
    (env1 env2 : FillEnv)
    (hnic : ¬ (strInList (Device.NICType m) ["physical", "ipvlan", "sriov"] = true))
    (hhw : Config.get m "hwaddr" = "")
    (hempty : Config.get vm.localConfig ("volatile." ++ name ++ ".hwaddr") = "")
    (hgen : env1.generateErr = none) (hmac : env1.generatedMac ≠ "")
    (hdb : env1.dbInsert = none) :
    (qemu.FillNetworkDevice vm name m env1).1 = none ∧
    (qemu.FillNetworkDevice vm name m env1).2.2.2 = 1 ∧
    Config.get (qemu.FillNetworkDevice vm name m env1).2.2.1.localConfig
      ("volatile." ++ name ++ ".hwaddr") = env1.generatedMac ∧
    (qemu.FillNetworkDevice (qemu.FillNetworkDevice vm name m env1).2.2.1 name m env2).1 = none ∧
    Config.get
      (qemu.FillNetworkDevice (qemu.FillNetworkDevice vm name m env1).2.2.1 name m env2).2.1
      "hwaddr" = env1.generatedMac ∧
    (qemu.FillNetworkDevice (qemu.FillNetworkDevice vm name m env1).2.2.1 name m env2).2.2.2 = 0 ∧
    (qemu.FillNetworkDevice (qemu.FillNetworkDevice vm name m env1).2.2.1 name m env2).2.2.1 =
      (qemu.FillNetworkDevice vm name m env1).2.2.1 := by
  have h1 : qemu.FillNetworkDevice vm name m env1 =
      (none, Config.set m "hwaddr" env1.generatedMac,
       { vm with
         localConfig :=
           Config.set vm.localConfig ("volatile." ++ name ++ ".hwaddr") env1.generatedMac
         expandedConfig :=
           Config.set vm.expandedConfig ("volatile." ++ name ++ ".hwaddr") env1.generatedMac },
       1) := by
    unfold qemu.FillNetworkDevice
    rw [if_pos ⟨hnic, hhw⟩, if_pos hempty, hgen, hdb]
  have hkey : Config.get
      (Config.set vm.localConfig ("volatile." ++ name ++ ".hwaddr") env1.generatedMac)
      ("volatile." ++ name ++ ".hwaddr") = env1.generatedMac :=
    Config.get_set_self _ _ _
  have h2 : qemu.FillNetworkDevice (qemu.FillNetworkDevice vm name m env1).2.2.1 name m env2 =
      (none,
       Config.set m "hwaddr" env1.generatedMac,
       (qemu.FillNetworkDevice vm name m env1).2.2.1, 0) := by
    rw [h1]
    unfold qemu.FillNetworkDevice
    rw [if_pos ⟨hnic, hhw⟩]
    rw [if_neg (by simpa [hkey] using hmac)]
    rw [hkey]
  rw [h1] at h2 ⊢
  rw [h2]
  exact ⟨rfl, rfl, hkey, rfl, Config.get_set_self _ _ _, rfl, rfl⟩

/-- Sample nic device and environments for the C9 witness. -/
def envF1 : FillEnv :=
  { generatedMac := "00:16:3e:aa:bb:cc", generateErr := none, dbInsert := none
    concurrentValue := none }

/-- Second-call environment whose outcomes are all failures, showing they
are never consulted. -/
def envF2 : FillEnv :=
  { generatedMac := "00:16:3e:99:99:99", generateErr := some (Err.msg "gen")
    dbInsert := some (Err.msg "db"), concurrentValue := none }

/-- Sample instance state for the C9 witness. -/
def vmF : qemu :=
  { description := "", architecture := 0, ephemeral := false
    localConfig := [], expandedConfig := [], localDevices := []
    expandedDevices := [], profiles := [], expiryDate := 0 }

/-- Witness for Claim C9 at a concrete device. -/
theorem C9_FillNetworkDevice_witness :
    (qemu.FillNetworkDevice vmF "eth0" [("type", "nic")] envF1).2.2.2 = 1 ∧
    Config.get
      (qemu.FillNetworkDevice
        (qemu.FillNetworkDevice vmF "eth0" [("type", "nic")] envF1).2.2.1
        "eth0" [("type", "nic")] envF2).2.1 "hwaddr" = "00:16:3e:aa:bb:cc" ∧
    (qemu.FillNetworkDevice
        (qemu.FillNetworkDevice vmF "eth0" [("type", "nic")] envF1).2.2.1
        "eth0" [("type", "nic")] envF2).2.2.2 = 0 := by
  have h := C9_FillNetworkDevice_idempotent vmF "eth0" [("type", "nic")] envF1 envF2
    (by decide) (by decide) (by decide) rfl (by decide) rfl
  exact ⟨h.2.1, h.2.2.2.2.1, h.2.2.2.2.2.1⟩

/-! ## CPU topology solver (`cpuTopology`) -/

/-- One host CPU thread as reported by `resources.GetCPU`: `ID` is the
scheduler thread id matched against pins, `Thread` the per-core thread
number. -/
structure CpuThread where
  ID : Int
  Thread : Nat
deriving DecidableEq, Repr

/-- One host core: its core id and its threads. -/
structure CpuCore where
  Core : Nat
  Threads : List CpuThread
deriving DecidableEq, Repr

/-- One host socket: its socket id and its cores. -/
structure CpuSocket where
  Socket : Nat
  Cores : List CpuCore
deriving DecidableEq, Repr

/-- Go `shared.Uint64InSlice`. -/
def natInList (n : Nat) : List Nat → Bool
  | [] => false
  | x :: rest => if x = n then true else natInList n rest

/-- The `sockets` / `cores` tracking maps: append the value to the key's
list when not already present, creating the entry when missing. -/
def mapAppendUniq : List (Nat × List Nat) → Nat → Nat → List (Nat × List Nat)
  | [], k, v => [(k, [v])]
  | (k0, vs) :: rest, k, v =>
    if k0 = k then (k0, if natInList v vs then vs else vs ++ [v]) :: rest
    else (k0, vs) :: mapAppendUniq rest k v

/-- The running state of the matching loop: next vcpu index, the
`vcpus` map, and the `sockets` / `cores` tracking maps. -/
structure MatchState where
  i : Nat
  vcpus : List (Nat × Nat)
  sockets : List (Nat × List Nat)
  cores : List (Nat × List Nat)
deriving DecidableEq, Repr

/-- Innermost loop of `cpuTopology`: try every pin against one thread. -/
def threadStep (socketID coreID : Nat) (t : CpuThread) (pins : List Nat)
    (st : MatchState) : MatchState :=
  pins.foldl
    (fun st (pin : Nat) =>
      if t.ID = (pin : Int) then
        { i := st.i + 1
          vcpus := st.vcpus ++ ([(st.i, pin)] : List (Nat × Nat))
          sockets := mapAppendUniq st.sockets socketID coreID
          cores := mapAppendUniq st.cores coreID t.Thread }
      else st)
    st

/-- Per-core loop of `cpuTopology`. -/
def coreStep (socketID : Nat) (c : CpuCore) (pins : List Nat) (st : MatchState) :
    MatchState :=
  c.Threads.foldl (fun st t => threadStep socketID c.Core t pins st) st

/-- Per-socket loop of `cpuTopology`. -/
def socketStep (s : CpuSocket) (pins : List Nat) (st : MatchState) : MatchState :=
  s.Cores.foldl (fun st c => coreStep s.Socket c pins st) st

/-- The full matching loop of `cpuTopology`. -/
def matchLoop (cpus : List CpuSocket) (pins : List Nat) : MatchState :=
  cpus.foldl (fun st s => socketStep s pins st)
    { i := 0, vcpus := [], sockets := [], cores := [] }

/-- The balancing-consistency loop of `cpuTopology` (`countCores := -1;
for ...: if countCores != -1 && len != countCores break with valid=false`):
returns the validity flag and the final counter value (kept at the
pre-break value when the loop breaks). -/
def goEqCheck : Int → List Int → Bool × Int
  | c, [] => (true, c)
  | c, n :: ns => if c ≠ -1 ∧ n ≠ c then (false, c) else goEqCheck n ns

/-- The `valid` flag after the two balancing checks and the
double-listing product check. -/
def validTopo (st : MatchState) : Bool :=
  (goEqCheck (-1) (st.sockets.map (fun kv => (kv.2.length : Int)))).1 &&
  (goEqCheck (-1) (st.cores.map (fun kv => (kv.2.length : Int)))).1 &&
  decide ((st.sockets.length : Int) *
      (goEqCheck (-1) (st.sockets.map (fun kv => (kv.2.length : Int)))).2 *
      (goEqCheck (-1) (st.cores.map (fun kv => (kv.2.length : Int)))).2 =
    (st.vcpus.length : Int))

/-- `qemu.cpuTopology`: resolve host topology and the pin set (both
external, given as outcomes), run the matching loop, fail when the number
of matched vcpus differs from the number of pins, then validate the
balancing of the tracking maps; a valid topology reports
`(#sockets, common cores, common threads)`, an invalid one falls back to
`(1, #vcpus, 1)` with a warning.  Result: error, nrSockets, nrCores,
nrThreads, vcpus map. -/
def qemu.cpuTopology :
    Option (List CpuSocket) → Option (List Nat) →
    Option Err × Int × Int × Int × List (Nat × Nat)
  | none, _ => (some (Err.msg "GetCPU failed"), -1, -1, -1, [])
  | some _, none => (some (Err.msg "ParseCpuset failed"), -1, -1, -1, [])
  | some cpus, some pins =>
      if (matchLoop cpus pins).vcpus.length ≠ pins.length then
        (some (Err.msg "Unavailable CPUs requested"), -1, -1, -1, [])
      else
        if validTopo (matchLoop cpus pins) then
          (none, ((matchLoop cpus pins).sockets.length : Int),
           (goEqCheck (-1) ((matchLoop cpus pins).sockets.map
             (fun kv => (kv.2.length : Int)))).2,
           (goEqCheck (-1) ((matchLoop cpus pins).cores.map
             (fun kv => (kv.2.length : Int)))).2,
           (matchLoop cpus pins).vcpus)
        else
          (none, 1, ((matchLoop cpus pins).vcpus.length : Int), 1,
           (matchLoop cpus pins).vcpus)

/-- Number of pins matching one thread (each match appends one vcpu). -/
def matchCount (t : CpuThread) : List Nat → Nat
  | [] => 0
  | p :: ps => (if t.ID = (p : Int) then 1 else 0) + matchCount t ps

/-- Total matches over a thread list. -/
def sumMatch : List CpuThread → List Nat → Nat
  | [], _ => 0
  | t :: ts, pins => matchCount t pins + sumMatch ts pins

/-- Number of threads in a list whose scheduler id equals a pin. -/
def countID : List CpuThread → Nat → Nat
  | [], _ => 0
  | t :: ts, p => (if t.ID = (p : Int) then 1 else 0) + countID ts p

/-- Total matches counted pin-side. -/
def sumCount : List Nat → List CpuThread → Nat
  | [], _ => 0
  | p :: ps, ts => countID ts p + sumCount ps ts

/-- All threads of a core list, in order. -/
def threadsOfCores : List CpuCore → List CpuThread
  | [] => []
  | c :: cs => c.Threads ++ threadsOfCores cs

/-- All threads of the host, in enumeration order. -/
def allThreads : List CpuSocket → List CpuThread
  | [] => []
  | s :: ss => threadsOfCores s.Cores ++ allThreads ss

theorem sumMatch_append (a b : List CpuThread) (pins : List Nat) :
    sumMatch (a ++ b) pins = sumMatch a pins + sumMatch b pins := by
  induction a with
  | nil => simp [sumMatch]
  | cons t ts ih => simp [sumMatch, ih]; omega

theorem threadStep_vcpus_len (sid cid : Nat) (t : CpuThread) :
    ∀ (pins : List Nat) (st : MatchState),
      (threadStep sid cid t pins st).vcpus.length = st.vcpus.length + matchCount t pins := by
  intro pins
  induction pins with
  | nil => intro st; simp [threadStep, matchCount]
  | cons p ps ih =>
    intro st
    unfold threadStep
    rw [List.foldl_cons]
    by_cases hm : t.ID = (p : Int)
    · rw [if_pos hm]
      have h2 := ih
        { i := st.i + 1
          vcpus := st.vcpus ++ ([(st.i, p)] : List (Nat × Nat))
          sockets := mapAppendUniq st.sockets sid cid
          cores := mapAppendUniq st.cores cid t.Thread }
      simp only [threadStep] at h2
      rw [h2]
      simp [matchCount, hm]
      omega
    · rw [if_neg hm]
      have h2 := ih st
      simp only [threadStep] at h2
      rw [h2]
      simp [matchCount, hm]

theorem coreStep_vcpus_len (sid : Nat) (c : CpuCore) (pins : List Nat) :
    ∀ st : MatchState,
      (coreStep sid c pins st).vcpus.length = st.vcpus.length + sumMatch c.Threads pins := by
  unfold coreStep
  generalize c.Threads = ts
  induction ts with
  | nil => intro st; simp [sumMatch]
  | cons t ts ih =>
    intro st
    rw [List.foldl_cons]
    rw [ih (threadStep sid c.Core t pins st)]
    rw [threadStep_vcpus_len]
    simp [sumMatch]
    omega

theorem socketStep_vcpus_len (s : CpuSocket) (pins : List Nat) :
    ∀ st : MatchState,
      (socketStep s pins st).vcpus.length =
        st.vcpus.length + sumMatch (threadsOfCores s.Cores) pins := by
  unfold socketStep
  generalize s.Cores = cs
  induction cs with
  | nil => intro st; simp [threadsOfCores, sumMatch]
  | cons c cs ih =>
    intro st
    rw [List.foldl_cons]
    rw [ih (coreStep s.Socket c pins st)]
    rw [coreStep_vcpus_len]
    simp [threadsOfCores, sumMatch_append]
    omega

theorem matchLoop_vcpus_len (cpus : List CpuSocket) (pins : List Nat) :
    (matchLoop cpus pins).vcpus.length = sumMatch (allThreads cpus) pins := by
  unfold matchLoop
  have hgen : ∀ (ss : List CpuSocket) (st : MatchState),
      (ss.foldl (fun st s => socketStep s pins st) st).vcpus.length =
        st.vcpus.length + sumMatch (allThreads ss) pins := by
    intro ss
    induction ss with
    | nil => intro st; simp [allThreads, sumMatch]
    | cons s ss ih =>
      intro st
      rw [List.foldl_cons, ih (socketStep s pins st), socketStep_vcpus_len]
      simp [allThreads, sumMatch_append]
      omega
  simpa using hgen cpus { i := 0, vcpus := [], sockets := [], cores := [] }

theorem sumCount_nil_ts (pins : List Nat) : sumCount pins [] = 0 := by
  induction pins with
  | nil => rfl
  | cons p ps ih => simp [sumCount, countID, ih]

theorem sumCount_cons_ts (pins : List Nat) (t : CpuThread) (ts : List CpuThread) :
    sumCount pins (t :: ts) = matchCount t pins + sumCount pins ts := by
  induction pins with
  | nil => rfl
  | cons p ps ih =>
    simp only [sumCount, countID, matchCount, ih]
    omega

theorem sumMatch_eq_sumCount (ts : List CpuThread) (pins : List Nat) :
    sumMatch ts pins = sumCount pins ts := by
  induction ts with
  | nil => simp [sumMatch, sumCount_nil_ts]
  | cons t ts ih => rw [sumMatch, sumCount_cons_ts, ih]

theorem countID_eq_zero (ts : List CpuThread) (p : Nat)
    (h : ∀ t ∈ ts, t.ID ≠ (p : Int)) : countID ts p = 0 := by
  induction ts with
  | nil => rfl
  | cons t ts ih =>
    simp only [countID, if_neg (h t (List.mem_cons_self t ts))]
    have := ih fun t2 h2 => h t2 (List.mem_cons_of_mem t h2)
    omega

theorem countID_eq_one (ts : List CpuThread) (p : Nat)
    (hnd : (ts.map CpuThread.ID).Nodup) (h : ∃ t ∈ ts, t.ID = (p : Int)) :
    countID ts p = 1 := by
  induction ts with
  | nil =>
    obtain ⟨t, ht, _⟩ := h
    cases ht
  | cons t ts ih =>
    have hx : t.ID ∉ ts.map CpuThread.ID := (List.nodup_cons.mp hnd).1
    have hndt : (ts.map CpuThread.ID).Nodup := (List.nodup_cons.mp hnd).2
    by_cases hm : t.ID = (p : Int)
    · have hz : countID ts p = 0 := by
        apply countID_eq_zero
        intro t2 h2 he
        exact hx (by rw [hm, ← he]; exact List.mem_map_of_mem CpuThread.ID h2)
      simp [countID, hm, hz]
    · obtain ⟨t2, ht2, he2⟩ := h
      rcases List.mem_cons.mp ht2 with h1 | h1
      · exact absurd (h1 ▸ he2) hm
      · simp only [countID, if_neg hm]
        rw [ih hndt ⟨t2, h1, he2⟩]

theorem countID_le_one (ts : List CpuThread) (p : Nat)
    (hnd : (ts.map CpuThread.ID).Nodup) : countID ts p ≤ 1 := by
  by_cases h : ∃ t ∈ ts, t.ID = (p : Int)
  · exact le_of_eq (countID_eq_one ts p hnd h)
  · push_neg at h
    rw [countID_eq_zero ts p h]
    exact Nat.zero_le 1

theorem sumCount_eq_length (pins : List Nat) (ts : List CpuThread)
    (h : ∀ p ∈ pins, countID ts p = 1) : sumCount pins ts = pins.length := by
  induction pins with
  | nil => rfl
  | cons p ps ih =>
    simp only [sumCount, h p (List.mem_cons_self p ps), List.length_cons]
    rw [ih fun q hq => h q (List.mem_cons_of_mem p hq)]
    omega

theorem sumCount_append (a b : List Nat) (ts : List CpuThread) :
    sumCount (a ++ b) ts = sumCount a ts + sumCount b ts := by
  induction a with
  | nil => simp [sumCount]
  | cons p ps ih => simp [sumCount, ih]; omega

theorem sumCount_le_length (pins : List Nat) (ts : List CpuThread)
    (h : ∀ p ∈ pins, countID ts p ≤ 1) : sumCount pins ts ≤ pins.length := by
  induction pins with
  | nil => exact Nat.le_refl 0
  | cons p ps ih =>
    simp only [sumCount, List.length_cons]
    have h1 := h p (List.mem_cons_self p ps)
    have h2 := ih fun q hq => h q (List.mem_cons_of_mem p hq)
    omega

theorem goEqCheck_cons (c n : Int) (ns : List Int) :
    goEqCheck c (n :: ns) = if c ≠ -1 ∧ n ≠ c then (false, c) else goEqCheck n ns :=
  rfl

theorem goEqCheck_fst_iff (c : Int) (hc : c ≠ -1) :
    ∀ ns : List Int, ((goEqCheck c ns).1 = true ↔ ∀ x ∈ ns, x = c) := by
  intro ns
  induction ns generalizing c with
  | nil => simp [goEqCheck]
  | cons n ns ih =>
    by_cases hn : n = c
    · subst hn
      rw [goEqCheck_cons, if_neg (fun h => h.2 rfl)]
      rw [ih n hc]
      constructor
      · intro h x hx
        rcases List.mem_cons.mp hx with h1 | h1
        · exact h1
        · exact h x h1
      · intro h x hx
        exact h x (List.mem_cons_of_mem _ hx)
    · rw [goEqCheck_cons, if_pos ⟨hc, hn⟩]
      constructor
      · intro h; cases h
      · intro h
        exact absurd (h n (List.mem_cons_self n ns)) hn

theorem goEqCheck_snd_of_all (c : Int) :
    ∀ ns : List Int, (∀ x ∈ ns, x = c) → (goEqCheck c ns).2 = c := by
  intro ns
  induction ns generalizing c with
  | nil => intro _; rfl
  | cons n ns ih =>
    intro h
    have hn : n = c := h n (List.mem_cons_self n ns)
    subst hn
    rw [goEqCheck_cons, if_neg (fun h2 => h2.2 rfl)]
    exact ih n fun x hx => h x (List.mem_cons_of_mem _ hx)

/-- All entries of a tracking map carry lists of one common length. -/
def allEqLens (m : List (Nat × List Nat)) : Prop :=
  ∀ x ∈ m, ∀ y ∈ m, x.2.length = y.2.length

/-- The head entry's list length (`-1` on the empty map), the value the
balancing counter ends at when the map is balanced. -/
def headLenI : List (Nat × List Nat) → Int
  | [] => -1
  | x :: _ => (x.2.length : Int)

theorem goEq_lens_fst (m : List (Nat × List Nat)) :
    ((goEqCheck (-1) (m.map fun kv => ((kv.2.length : Nat) : Int))).1 = true ↔
      allEqLens m) := by
  cases m with
  | nil =>
    simp only [List.map_nil, goEqCheck]
    simp [allEqLens]
  | cons x rest =>
    rw [List.map_cons, goEqCheck_cons, if_neg (fun h => h.1 rfl)]
    have hc : ((x.2.length : Nat) : Int) ≠ -1 := by omega
    rw [goEqCheck_fst_iff _ hc]
    constructor
    · intro h a ha b hb
      have hz : ∀ z ∈ x :: rest, ((z.2.length : Nat) : Int) = ((x.2.length : Nat) : Int) := by
        intro z hzm
        rcases List.mem_cons.mp hzm with h1 | h1
        · rw [h1]
        · exact h _ (List.mem_map_of_mem _ h1)
      have hA := hz a ha
      have hB := hz b hb
      omega
    · intro h y hy
      obtain ⟨kv, hkv, rfl⟩ := List.mem_map.mp hy
      have := h kv (List.mem_cons_of_mem _ hkv) x (List.mem_cons_self _ _)
      omega

theorem goEq_lens_snd (m : List (Nat × List Nat)) (h : allEqLens m) :
    (goEqCheck (-1) (m.map fun kv => ((kv.2.length : Nat) : Int))).2 = headLenI m := by
  cases m with
  | nil => rfl
  | cons x rest =>
    rw [List.map_cons, goEqCheck_cons, if_neg (fun h2 => h2.1 rfl)]
    have hall : ∀ y ∈ rest.map (fun kv => ((kv.2.length : Nat) : Int)),
        y = ((x.2.length : Nat) : Int) := by
      intro y hy
      obtain ⟨kv, hkv, rfl⟩ := List.mem_map.mp hy
      have := h kv (List.mem_cons_of_mem _ hkv) x (List.mem_cons_self _ _)
      omega
    rw [goEqCheck_snd_of_all _ _ hall]
    rfl

theorem validTopo_iff (st : MatchState) :
    validTopo st = true ↔
      (allEqLens st.sockets ∧ allEqLens st.cores ∧
       (st.sockets.length : Int) * headLenI st.sockets * headLenI st.cores =
         (st.vcpus.length : Int)) := by
  unfold validTopo
  rw [Bool.and_eq_true, Bool.and_eq_true]
  constructor
  · rintro ⟨⟨hA, hB⟩, hC⟩
    have hA2 := (goEq_lens_fst st.sockets).mp hA
    have hB2 := (goEq_lens_fst st.cores).mp hB
    refine ⟨hA2, hB2, ?_⟩
    have hC2 := of_decide_eq_true hC
    rw [goEq_lens_snd _ hA2, goEq_lens_snd _ hB2] at hC2
    exact hC2
  · rintro ⟨hA, hB, hC⟩
    refine ⟨⟨(goEq_lens_fst _).mpr hA, (goEq_lens_fst _).mpr hB⟩, ?_⟩
    apply decide_eq_true
    rw [goEq_lens_snd _ hA, goEq_lens_snd _ hB]
    exact hC

theorem cpuTopology_some (cpus : List CpuSocket) (pins : List Nat) :
    qemu.cpuTopology (some cpus) (some pins) =
      if (matchLoop cpus pins).vcpus.length ≠ pins.length then
        (some (Err.msg "Unavailable CPUs requested"), -1, -1, -1, [])
      else
        if validTopo (matchLoop cpus pins) then
          (none, ((matchLoop cpus pins).sockets.length : Int),
           (goEqCheck (-1) ((matchLoop cpus pins).sockets.map
             (fun kv => (kv.2.length : Int)))).2,
           (goEqCheck (-1) ((matchLoop cpus pins).cores.map
             (fun kv => (kv.2.length : Int)))).2,
           (matchLoop cpus pins).vcpus)
        else
          (none, 1, ((matchLoop cpus pins).vcpus.length : Int), 1,
           (matchLoop cpus pins).vcpus) :=
  rfl

theorem matchLoop_len_of_allmatch (cpus : List CpuSocket) (pins : List Nat)
    (hids : ((allThreads cpus).map CpuThread.ID).Nodup)
    (hmatch : ∀ p ∈ pins, ∃ t ∈ allThreads cpus, t.ID = (p : Int)) :
    (matchLoop cpus pins).vcpus.length = pins.length := by
  rw [matchLoop_vcpus_len, sumMatch_eq_sumCount]
  exact sumCount_eq_length pins (allThreads cpus)
    (fun p hp => countID_eq_one (allThreads cpus) p hids (hmatch p hp))

theorem matchLoop_len_lt (cpus : List CpuSocket) (pins : List Nat)
    (hids : ((allThreads cpus).map CpuThread.ID).Nodup)
    (h : ∃ p ∈ pins, ∀ t ∈ allThreads cpus, t.ID ≠ (p : Int)) :
    (matchLoop cpus pins).vcpus.length < pins.length := by
  obtain ⟨p0, hp0, hnm⟩ := h
  obtain ⟨l1, l2, rfl⟩ := List.append_of_mem hp0
  rw [matchLoop_vcpus_len, sumMatch_eq_sumCount, sumCount_append]
  have hz : countID (allThreads cpus) p0 = 0 := countID_eq_zero _ _ hnm
  have h1 : sumCount l1 (allThreads cpus) ≤ l1.length :=
    sumCount_le_length _ _ (fun q _ => countID_le_one _ _ hids)
  have h2 : sumCount l2 (allThreads cpus) ≤ l2.length :=
    sumCount_le_length _ _ (fun q _ => countID_le_one _ _ hids)
  simp only [sumCount, hz, List.length_append, List.length_cons]
  omega

/-- Claim C8: for a cpuset of `N` unique pins on a host whose thread ids
are distinct, if every pin matches a host thread then `cpuTopology`
succeeds and returns a `vcpus` map with exactly `N` entries; the topology
is reported valid exactly when every socket contributes the same number of
cores, every core the same number of threads, and
`sockets x cores x threads = N`; when valid the returned
`(nrSockets, nrCores, nrThreads)` multiply to `N`, and when invalid the
result falls back to `(1, N, 1)`.  If some pin matches no host thread,
`cpuTopology` errors. -/
theorem C8_cpuTopology (cpus : List CpuSocket) (pins : List Nat)
    (hpins : pins.Nodup)
    (hids : ((allThreads cpus).map CpuThread.ID).Nodup) :
    ((∀ p ∈ pins, ∃ t ∈ allThreads cpus, t.ID = (p : Int)) →
      ((qemu.cpuTopology (some cpus) (some pins)).1 = none ∧
       (qemu.cpuTopology (some cpus) (some pins)).2.2.2.2.length = pins.length ∧
       (validTopo (matchLoop cpus pins) = true ↔
         (allEqLens (matchLoop cpus pins).sockets ∧
          allEqLens (matchLoop cpus pins).cores ∧
          ((matchLoop cpus pins).sockets.length : Int) *
            headLenI (matchLoop cpus pins).sockets *
            headLenI (matchLoop cpus pins).cores = (pins.length : Int))) ∧
       (validTopo (matchLoop cpus pins) = true →
         (qemu.cpuTopology (some cpus) (some pins)).2.1 *
           (qemu.cpuTopology (some cpus) (some pins)).2.2.1 *
           (qemu.cpuTopology (some cpus) (some pins)).2.2.2.1 = (pins.length : Int)) ∧
       (validTopo (matchLoop cpus pins) = false →
         ((qemu.cpuTopology (some cpus) (some pins)).2.1 = 1 ∧
          (qemu.cpuTopology (some cpus) (some pins)).2.2.1 = (pins.length : Int) ∧
          (qemu.cpuTopology (some cpus) (some pins)).2.2.2.1 = 1)))) ∧
    ((∃ p ∈ pins, ∀ t ∈ allThreads cpus, t.ID ≠ (p : Int)) →
      ((qemu.cpuTopology (some cpus) (some pins)).1).isSome = true) := by
  constructor
  · intro hmatch
    have hlen := matchLoop_len_of_allmatch cpus pins hids hmatch
    have hcond : ¬ ((matchLoop cpus pins).vcpus.length ≠ pins.length) := fun h => h hlen
    have hiff : validTopo (matchLoop cpus pins) = true ↔
        (allEqLens (matchLoop cpus pins).sockets ∧
         allEqLens (matchLoop cpus pins).cores ∧
         ((matchLoop cpus pins).sockets.length : Int) *
           headLenI (matchLoop cpus pins).sockets *
           headLenI (matchLoop cpus pins).cores = (pins.length : Int)) := by
      have h0 := validTopo_iff (matchLoop cpus pins)
      rw [hlen] at h0
      exact h0
    have hbase : qemu.cpuTopology (some cpus) (some pins) =
        (if validTopo (matchLoop cpus pins) then
          (none, ((matchLoop cpus pins).sockets.length : Int),
           (goEqCheck (-1) ((matchLoop cpus pins).sockets.map
             (fun kv => (kv.2.length : Int)))).2,
           (goEqCheck (-1) ((matchLoop cpus pins).cores.map
             (fun kv => (kv.2.length : Int)))).2,
           (matchLoop cpus pins).vcpus)
        else
          (none, 1, ((matchLoop cpus pins).vcpus.length : Int), 1,
           (matchLoop cpus pins).vcpus)) := by
      rw [cpuTopology_some, if_neg hcond]
    by_cases hv : validTopo (matchLoop cpus pins) = true
    · rw [hbase, if_pos hv]
      have h2 := hiff.mp hv
      refine ⟨rfl, hlen, hiff, ?_, ?_⟩
      · intro _
        have e1 := goEq_lens_snd (matchLoop cpus pins).sockets h2.1
        have e2 := goEq_lens_snd (matchLoop cpus pins).cores h2.2.1
        dsimp only
        rw [e1, e2]
        exact h2.2.2
      · intro hvf
        rw [hv] at hvf
        cases hvf
    · rw [hbase, if_neg hv]
      refine ⟨rfl, hlen, hiff, ?_, ?_⟩
      · intro hvt
        exact absurd hvt hv
      · intro _
        refine ⟨rfl, ?_, rfl⟩
        dsimp only
        rw [hlen]
  · intro hnomatch
    have hlt := matchLoop_len_lt cpus pins hids hnomatch
    have hcond : (matchLoop cpus pins).vcpus.length ≠ pins.length := Nat.ne_of_lt hlt
    rw [cpuTopology_some, if_pos hcond]
    rfl

/-- Sample host for the C8 witness: one socket with two single-thread
cores. -/
def cpusW : List CpuSocket :=
  [{ Socket := 0
     Cores := [{ Core := 0, Threads := [{ ID := 0, Thread := 0 }] },
               { Core := 1, Threads := [{ ID := 1, Thread := 0 }] }] }]

/-- Witness for Claim C8 at a concrete host topology and pin set. -/
theorem C8_cpuTopology_witness :
    (qemu.cpuTopology (some cpusW) (some [0, 1])).1 = none ∧
    (qemu.cpuTopology (some cpusW) (some [0, 1])).2.2.2.2.length = 2 ∧
    (qemu.cpuTopology (some cpusW) (some [0, 1])).2.1 *
      (qemu.cpuTopology (some cpusW) (some [0, 1])).2.2.1 *
      (qemu.cpuTopology (some cpusW) (some [0, 1])).2.2.2.1 = (2 : Int) := by
  have h := (C8_cpuTopology cpusW [0, 1] (by decide) (by decide)).1 (by decide)
  refine ⟨h.1, h.2.1, ?_⟩
  have h4 := h.2.2.2.1 (by decide)
  simpa using h4
